import Mathlib

/-!
# source_mm_fiber: a multimode-fiber ray source

Shallow embedding of `src/source_mm_fiber.cpp` and proofs of its specification.

Modelling conventions.

* Every definition is generic in the number type `K` that stands for `double`; it only
  asks `K` for the operations and comparisons the source uses. Two readings are used.
  The exact reading takes `K = ℝ` (or any linearly ordered field, so the definitions run on
  `ℚ`): it is the reading of the statements made over the reals and of the statements that
  do not depend on rounding. The IEEE 754 reading takes `K = F64`, a model of binary64 with
  rounding to nearest, gradual underflow, infinities and NaN: it is the reading used to run
  the code where underflow and NaN decide the outcome.
* The functions of `<cmath>` that the source calls (`std::exp`, `std::pow`, `std::asin`,
  `std::tan`, `std::sqrt`) are a parameter `CMath K`; `realMath` is their exact reading on
  `ℝ`. On `F64` they stay a parameter: the only facts used about them are special values
  fixed by C Annex F (a NaN result on a NaN argument, `exp(-0) = 1`, `pow(+0, a) = +0` for
  `a > 0`), stated as hypotheses.
* `double *data` is a total map from slot index to value.
* `std::mt19937 gen(rd())` is an injected stream of canonical draws together with a read
  position; `std::uniform_real_distribution<double>(a, b)` maps a canonical draw `u` to
  `u * (b - a) + a`.
* The `do ... while (reject)` loop has no bound in the source; its model takes a fuel
  argument that caps the number of iterations and yields `none` when the cap is hit.
* `char *data` is a total map from byte index to the (signed or unsigned) value of the
  byte; `(unsigned char)` is reduction modulo 256.
-/

namespace SourceMMFiber

/-! ## Library functions -/

/-- The `<cmath>` functions used by the source, as operations on the number type `K`. -/
structure CMath (K : Type) where
  /-- Reading of `std::exp`. -/
  exp : K → K
  /-- Reading of `std::pow`. -/
  pow : K → K → K
  /-- Reading of `std::asin`. -/
  asin : K → K
  /-- Reading of `std::tan`. -/
  tan : K → K
  /-- Reading of `std::sqrt`. -/
  sqrt : K → K

/-- The `<cmath>` functions read as the real functions they approximate: the exact reading,
without the rounding, underflow and overflow of the double results. -/
noncomputable def realMath : CMath ℝ where
  exp := Real.exp
  pow := fun x y => x ^ y
  asin := Real.arcsin
  tan := Real.tan
  sqrt := Real.sqrt

/-- State of the generator `gen`: the injected stream of canonical draws and the index of
the next draw to hand out. -/
structure Gen (K : Type) where
  /-- The injected canonical draws. -/
  stream : Nat → K
  /-- Index of the next draw. -/
  pos : Nat

/-- One call of the engine: the next canonical draw and the advanced generator. -/
def Gen.next {K : Type} (gen : Gen K) : K × Gen K :=
  (gen.stream gen.pos, ⟨gen.stream, gen.pos + 1⟩)

/-- Parameters of `std::uniform_real_distribution<double>(a, b)`. -/
structure UniformReal (K : Type) where
  /-- Lower end of the range. -/
  a : K
  /-- Upper end of the range. -/
  b : K

/-- The call `dist(gen)`: a canonical draw scaled to the range of the distribution. -/
def UniformReal.draw {K : Type} [Add K] [Sub K] [Mul K] (dist : UniformReal K)
    (gen : Gen K) : K × Gen K :=
  ((gen.next).1 * (dist.b - dist.a) + dist.a, (gen.next).2)

/-! ## The ray source -/

section Source

variable {K : Type} [Add K] [Sub K] [Mul K] [Div K] [Neg K] [OfScientific K]
  [OfNat K 1] [OfNat K 2] [LE K] [LT K]
  [∀ a b : K, Decidable (a ≤ b)] [∀ a b : K, Decidable (a < b)]

/-- Source lines 48-50: the Bivariate Generalized Gaussian Distribution. -/
def BGGD (M : CMath K) (xx yy omega2 alpha : K) : K :=
  M.exp (-2 * M.pow ((xx * xx + yy * yy) / omega2) alpha)

/-- The four user parameters after the defaulting of source lines 54-75. -/
structure SourceParameters (K : Type) where
  /-- Spatial scale of the BGGD. -/
  omega : K
  /-- Shape exponent of the BGGD. -/
  alpha : K
  /-- Half-width of the sampling box in units of `omega`. -/
  rejection_factor : K
  /-- Numerical aperture of the fiber. -/
  fiber_na : K

/-- Source lines 54-75: each raw parameter is kept or replaced by its default. -/
def resolveParameters (omega alpha rejection_factor fiber_na : K) : SourceParameters K :=
  let omega := if omega ≤ 0.0 then 0.1 else omega
  let alpha := if alpha < 1 then 1.0 else alpha
  let rejection_factor := if rejection_factor ≤ 0.0 then 2.0 else rejection_factor
  let fiber_na := if fiber_na ≤ 0.0 then 0.39 else fiber_na
  ⟨omega, alpha, rejection_factor, fiber_na⟩

/-- Source lines 98-106: the `do ... while (reject)` loop. Each iteration draws `xx`, `yy`
and `uu` in this order and stops when `uu > bggd_value` is false. The result is the value
of the locals `xx`, `yy`, `uu` after the loop and the generator state; `none` when the
fuel is exhausted before a candidate is accepted. -/
def rejectionSampling (M : CMath K) (draw_xy draw_uu : UniformReal K) (omega2 alpha : K) :
    Nat → Gen K → Option (K × K × K × Gen K)
  | 0, _ => none
  | fuel + 1, gen =>
    let xx := (draw_xy.draw gen).1
    let gen1 := (draw_xy.draw gen).2
    let yy := (draw_xy.draw gen1).1
    let gen2 := (draw_xy.draw gen1).2
    let uu := (draw_uu.draw gen2).1
    let gen3 := (draw_uu.draw gen2).2
    let bggd_value := BGGD M xx yy omega2 alpha
    let reject : Bool := decide (uu > bggd_value)
    if reject then rejectionSampling M draw_xy draw_uu omega2 alpha fuel gen3
    else some (xx, yy, uu, gen3)

/-- The candidate `(xx, yy, uu)` drawn by iteration `k` (counted from 0) of the loop started
in generator state `gen`: iteration `k` reads the draws `3k`, `3k + 1`, `3k + 2` after
`gen.pos`. -/
def candidate (draw_xy draw_uu : UniformReal K) (gen : Gen K) (k : Nat) : K × K × K :=
  ((draw_xy.draw ⟨gen.stream, gen.pos + 3 * k⟩).1,
   (draw_xy.draw ⟨gen.stream, gen.pos + 3 * k + 1⟩).1,
   (draw_uu.draw ⟨gen.stream, gen.pos + 3 * k + 2⟩).1)

/-- Source lines 119-121: the direction cosines `(ll, mm, nn)` of the angles
`theta_x`, `theta_y`. -/
def directionCosines (M : CMath K) (theta_x theta_y : K) : K × K × K :=
  let nn := 1.0 / M.sqrt (1.0 + M.tan theta_x * M.tan theta_x + M.tan theta_y * M.tan theta_y)
  let ll := nn * M.tan theta_x
  let mm := nn * M.tan theta_y
  (ll, mm, nn)

/-- Source lines 109-121: the half-cone angle, the two angles drawn within it and their
direction cosines `(ll, mm, nn)`. -/
def angularSampling (M : CMath K) (fiber_na : K) (gen : Gen K) : K × K × K :=
  let half_cone_angle := M.asin fiber_na
  let draw_theta : UniformReal K := ⟨-half_cone_angle, half_cone_angle⟩
  let theta_x := (draw_theta.draw gen).1
  let gen := (draw_theta.draw gen).2
  let theta_y := (draw_theta.draw gen).1
  directionCosines M theta_x theta_y

/-- The assignment `data[i] = v`. -/
def store (data : Nat → K) (i : Nat) (v : K) : Nat → K :=
  fun j => if j = i then v else data j

/-- Source lines 124-130: the seven assignments that return the accepted ray. -/
def returnRay (data : Nat → K) (xx yy ll mm nn : K) : Nat → K :=
  let data := store data 1 xx
  let data := store data 2 yy
  let data := store data 3 0.0
  let data := store data 4 ll
  let data := store data 5 mm
  let data := store data 6 nn
  let data := store data 7 1.0
  data

/-- Source lines 52-133. The result is the return code and the buffer after the call, or
`none` when the rejection loop does not stop within `fuel` iterations. -/
def UserSourceDefinition (M : CMath K) (fuel : Nat) (gen : Gen K) (data : Nat → K) :
    Option (Int × (Nat → K)) :=
  let p := resolveParameters (data 30) (data 31) (data 32) (data 33)
  let omega2 := p.omega * p.omega
  let min_val := -p.rejection_factor * p.omega
  let max_val := p.rejection_factor * p.omega
  let draw_xy : UniformReal K := ⟨min_val, max_val⟩
  let draw_uu : UniformReal K := ⟨0.0, 1.0⟩
  match rejectionSampling M draw_xy draw_uu omega2 p.alpha fuel gen with
  | none => none
  | some (xx, yy, _, gen) =>
    let d := angularSampling M p.fiber_na gen
    some (0, returnRay data xx yy d.1 d.2.1 d.2.2)

/-- What a call hands back to the host: the return code and the seven slots `data[1]` to
`data[7]` of the buffer after the call. -/
def emittedRay (r : Int × (Nat → K)) : Int × List K :=
  (r.1, [r.2 1, r.2 2, r.2 3, r.2 4, r.2 5, r.2 6, r.2 7])

end Source

/-! ## Parameter names -/

/-- The bytes of a string literal, without the terminating NUL. -/
def cBytes (s : String) : List Int :=
  s.toList.map (fun c => (c.toNat : Int))

/-- Writes the bytes `bs` to `dest` from offset `i` on. -/
def writeBytes (dest : Nat → Int) : Nat → List Int → Nat → Int
  | _, [] => dest
  | i, b :: bs => writeBytes (fun j => if j = i then b else dest j) (i + 1) bs

/-- The call `strcpy_s(dest, destsz, src)`: when `src` and its NUL fit in `destsz` bytes
they are copied to the start of `dest`; otherwise (a runtime-constraint violation)
`dest[0]` is set to NUL. The returned error code, which the source ignores, is left out. -/
def strcpy_s (dest : Nat → Int) (destsz : Nat) (src : String) : Nat → Int :=
  if (cBytes src).length < destsz then writeBytes dest 0 (cBytes src ++ [0])
  else fun j => if j = 0 then 0 else dest j

/-- Source lines 141-152. The result is the return code and the buffer after the call. -/
def UserParamNames (data : Nat → Int) : Int × (Nat → Int) :=
  let ii : Nat := (data 0 % 256).toNat
  let data := strcpy_s data 1 ""
  let data := if ii = 1 then strcpy_s data 6 "Omega" else data
  let data := if ii = 2 then strcpy_s data 6 "Alpha" else data
  let data := if ii = 3 then strcpy_s data 22 "Rejection grid factor" else data
  let data := if ii = 4 then strcpy_s data 9 "Fiber NA" else data
  (0, data)

/-- The C string stored at the start of `data`: the bytes before the first NUL, or `none`
when none of the first `cap` bytes is NUL. -/
def readCString (data : Nat → Int) : Nat → Nat → Option (List Int)
  | 0, _ => none
  | cap + 1, i =>
    if data i = 0 then some []
    else (readCString data cap (i + 1)).map (fun bs => data i :: bs)

/-! ## The IEEE 754 reading of `double`

The definitions of the ray source are generic in the number type. Besides the exact
reading on `ℝ`, they run on `F64`, a model of binary64 with round-to-nearest-even,
gradual underflow, overflow to infinity, signed zeros and one NaN. -/

/-- A value of the type `double`: a NaN, an infinity, or the finite number
`(-1)^neg * m * 2^e`. The operations return finite values with `m` odd, or with `m = 0`
and `e = 0`. -/
inductive F64 where
  | nan : F64
  | inf (neg : Bool) : F64
  | fin (neg : Bool) (m : Nat) (e : Int) : F64
  deriving DecidableEq

/-- Number of binary digits of `m`, counted with at most `fuel` halvings. -/
def F64.bitLengthAux : Nat → Nat → Nat
  | 0, _ => 0
  | fuel + 1, m => if m = 0 then 0 else F64.bitLengthAux fuel (m / 2) + 1

/-- Number of binary digits of `m`: 0 for 0, and `k + 1` when `2^k ≤ m < 2^(k+1)`. -/
def F64.bitLength (m : Nat) : Nat :=
  F64.bitLengthAux m m

/-- The finite value `(-1)^neg * m * 2^e` with the trailing zero bits of `m` moved into the
exponent. -/
def F64.canon (neg : Bool) (m : Nat) (e : Int) : F64 :=
  if m = 0 then F64.fin neg 0 0
  else
    let tz := F64.bitLength (Nat.gcd m (2 ^ F64.bitLength m)) - 1
    F64.fin neg (m / 2 ^ tz) (e + tz)

/-- The value `(-1)^neg * m * 2^e` that is known to be a binary64 number or to exceed the
binary64 range: an infinity from `2^1024` on. -/
def F64.finish (neg : Bool) (m : Nat) (e : Int) : F64 :=
  if m = 0 then F64.fin neg 0 0
  else if 1024 < e + (F64.bitLength m : Int) then F64.inf neg
  else F64.canon neg m e

/-- Rounding to binary64, to nearest with ties to even, of the exact value
`(-1)^neg * (m + t) * 2^e`, where `t = 0` when `sticky` is false and `0 < t < 1` when it is
true. The result keeps 53 significant bits and no bit below `2^-1074`. -/
def F64.round (neg : Bool) (m : Nat) (e : Int) (sticky : Bool) : F64 :=
  if m = 0 then F64.fin neg 0 0
  else
    let q : Int := max (e + (F64.bitLength m : Int) - 53) (-1074)
    if q ≤ e then F64.finish neg m e
    else
      let s : Nat := (q - e).toNat
      let qm := m / 2 ^ s
      let r := m % 2 ^ s
      let half := 2 ^ (s - 1)
      let up : Bool := decide (half < r) || (decide (r = half) && (sticky || decide (qm % 2 = 1)))
      F64.finish neg (if up then qm + 1 else qm) q

/-- The integer `(-1)^neg * m * 2^k`. -/
def F64.scaled (neg : Bool) (m : Nat) (k : Int) : Int :=
  if neg then -((m * 2 ^ k.toNat : Nat) : Int) else ((m * 2 ^ k.toNat : Nat) : Int)

/-- The operation `-x`. -/
def F64.neg : F64 → F64
  | F64.nan => F64.nan
  | F64.inf s => F64.inf (!s)
  | F64.fin s m e => F64.fin (!s) m e

/-- The operation `x + y`. -/
def F64.add : F64 → F64 → F64
  | F64.nan, _ => F64.nan
  | _, F64.nan => F64.nan
  | F64.inf s, F64.inf t => if s = t then F64.inf s else F64.nan
  | F64.inf s, F64.fin _ _ _ => F64.inf s
  | F64.fin _ _ _, F64.inf t => F64.inf t
  | F64.fin s m e, F64.fin t n f =>
    let c := min e f
    let sum := F64.scaled s m (e - c) + F64.scaled t n (f - c)
    if sum = 0 then F64.fin (s && t) 0 0
    else F64.round (decide (sum < 0)) sum.natAbs c false

/-- The operation `x * y`. -/
def F64.mul : F64 → F64 → F64
  | F64.nan, _ => F64.nan
  | _, F64.nan => F64.nan
  | F64.inf s, F64.inf t => F64.inf (xor s t)
  | F64.inf s, F64.fin t n _ => if n = 0 then F64.nan else F64.inf (xor s t)
  | F64.fin s m _, F64.inf t => if m = 0 then F64.nan else F64.inf (xor s t)
  | F64.fin s m e, F64.fin t n f => F64.round (xor s t) (m * n) (e + f) false

/-- The operation `x / y`. A finite quotient is computed to 64 bits beyond the divisor's
length, the remainder being the sticky part. -/
def F64.div : F64 → F64 → F64
  | F64.nan, _ => F64.nan
  | _, F64.nan => F64.nan
  | F64.inf _, F64.inf _ => F64.nan
  | F64.inf s, F64.fin t _ _ => F64.inf (xor s t)
  | F64.fin s _ _, F64.inf t => F64.fin (xor s t) 0 0
  | F64.fin s m e, F64.fin t n f =>
    if n = 0 then (if m = 0 then F64.nan else F64.inf (xor s t))
    else if m = 0 then F64.fin (xor s t) 0 0
    else
      let k : Nat := F64.bitLength n + 64
      F64.round (xor s t) (m * 2 ^ k / n) (e - f - k) (decide (m * 2 ^ k % n ≠ 0))

/-- The comparison `x < y`, false when an operand is NaN. -/
def F64.lt : F64 → F64 → Bool
  | F64.nan, _ => false
  | _, F64.nan => false
  | F64.inf s, F64.inf t => s && !t
  | F64.inf s, F64.fin _ _ _ => s
  | F64.fin _ _ _, F64.inf t => !t
  | F64.fin s m e, F64.fin t n f =>
    decide (F64.scaled s m (e - min e f) < F64.scaled t n (f - min e f))

/-- The comparison `x <= y`, false when an operand is NaN. -/
def F64.le : F64 → F64 → Bool
  | F64.nan, _ => false
  | _, F64.nan => false
  | F64.inf s, F64.inf t => s || !t
  | F64.inf s, F64.fin _ _ _ => s
  | F64.fin _ _ _, F64.inf t => !t
  | F64.fin s m e, F64.fin t n f =>
    decide (F64.scaled s m (e - min e f) ≤ F64.scaled t n (f - min e f))

/-- A decimal literal `mantissa * 10^(± decimalExponent)`, correctly rounded. -/
def F64.ofScientific (mantissa : Nat) (exponentSign : Bool) (decimalExponent : Nat) : F64 :=
  if exponentSign then F64.div (F64.fin false mantissa 0) (F64.fin false (10 ^ decimalExponent) 0)
  else F64.round false (mantissa * 10 ^ decimalExponent) 0 false

instance : Neg F64 := ⟨F64.neg⟩
instance : Add F64 := ⟨F64.add⟩
instance : Sub F64 := ⟨fun x y => F64.add x (F64.neg y)⟩
instance : Mul F64 := ⟨F64.mul⟩
instance : Div F64 := ⟨F64.div⟩
instance : LT F64 := ⟨fun x y => F64.lt x y = true⟩
instance : LE F64 := ⟨fun x y => F64.le x y = true⟩
instance (x y : F64) : Decidable (x < y) := inferInstanceAs (Decidable (F64.lt x y = true))
instance (x y : F64) : Decidable (x ≤ y) := inferInstanceAs (Decidable (F64.le x y = true))
instance : OfScientific F64 := ⟨F64.ofScientific⟩
instance (n : Nat) : OfNat F64 n := ⟨F64.round false n 0 false⟩

/-- A parameter buffer for the binary64 reading: `data[30]` (omega) holds `2^-600`, a
positive double, and every other slot holds 0, so the other three parameters take their
defaults. -/
def tinyOmegaData : Nat → F64 :=
  fun i => if i = 30 then F64.fin false 1 (-600) else F64.fin false 0 0

/-- A stream of canonical draws in `[0, 1)` for the binary64 reading: 0.625 for every `xx`
and `yy`, 0.5 for every `uu`. -/
def tinyOmegaStream : Nat → F64 :=
  fun i => if i % 3 = 2 then F64.fin false 1 (-1) else F64.fin false 5 (-3)

/-- A parameter buffer for the binary64 reading: `data[30]` (omega) holds `2^600`, a finite
positive double, and every other slot holds 0, so the other three parameters take their
defaults. -/
def hugeOmegaData : Nat → F64 :=
  fun i => if i = 30 then F64.fin false 1 600 else F64.fin false 0 0

/-- A value that is NaN, `+inf` or finite with the sign bit clear. -/
def F64.NonNegShape (x : F64) : Prop :=
  x = F64.nan ∨ x = F64.inf false ∨ ∃ m e, x = F64.fin false m e

/-- The stream of canonical draws that repeats the triple `a`, `b`, `u`: every iteration of
the loop reads `a` for `xx`, `b` for `yy` and `u` for `uu`. -/
def periodicStream {K : Type} (a b u : K) : Nat → K :=
  fun i => if i % 3 = 0 then a else if i % 3 = 1 then b else u

/-- The name table of the specification: the display name of a parameter index, empty
for every index other than 1 to 4. -/
def ParameterNameRegistry (index : Int) : String :=
  if index = 1 then "Omega"
  else if index = 2 then "Alpha"
  else if index = 3 then "Rejection grid factor"
  else if index = 4 then "Fiber NA"
  else ""

/-! ## Parameter resolution -/

/-- C1. Parameter resolution follows the defaulting table, each field depending on its own
raw value only: `omega` becomes 0.1 when `omega ≤ 0`, `alpha` becomes 1.0 when `alpha < 1`,
`rejectionFactor` becomes 2.0 when `rejectionFactor ≤ 0`, `fiberNA` becomes 0.39 when
`fiberNA ≤ 0`, and every other raw value is kept; in particular the raw values
`(0, 0.5, -1, 0)` resolve to `(0.1, 1.0, 2.0, 0.39)`. -/
theorem resolveParameters_defaulting_table (omega alpha rejectionFactor fiberNA : ℝ) :
    (resolveParameters omega alpha rejectionFactor fiberNA).omega
        = (if omega ≤ 0 then 0.1 else omega)
    ∧ (resolveParameters omega alpha rejectionFactor fiberNA).alpha
        = (if alpha < 1 then 1.0 else alpha)
    ∧ (resolveParameters omega alpha rejectionFactor fiberNA).rejection_factor
        = (if rejectionFactor ≤ 0 then 2.0 else rejectionFactor)
    ∧ (resolveParameters omega alpha rejectionFactor fiberNA).fiber_na
        = (if fiberNA ≤ 0 then 0.39 else fiberNA)
    ∧ (resolveParameters (0 : ℝ) alpha rejectionFactor fiberNA).omega = 0.1
    ∧ (resolveParameters omega (0.5 : ℝ) rejectionFactor fiberNA).alpha = 1.0
    ∧ (resolveParameters omega alpha (-1 : ℝ) fiberNA).rejection_factor = 2.0
    ∧ (resolveParameters omega alpha rejectionFactor (0 : ℝ)).fiber_na = 0.39 := by
  refine ⟨?_, ?_, ?_, ?_, ?_, ?_, ?_, ?_⟩ <;> simp only [resolveParameters] <;> norm_num

/-- The resolved parameters meet the lower bounds checked by the source: `omega > 0`,
`alpha ≥ 1`, `rejection_factor > 0` and `fiber_na > 0`. -/
theorem resolveParameters_lower_bounds {K : Type} [LinearOrderedField K]
    (omega alpha rejectionFactor fiberNA : K) :
    0 < (resolveParameters omega alpha rejectionFactor fiberNA).omega
    ∧ 1 ≤ (resolveParameters omega alpha rejectionFactor fiberNA).alpha
    ∧ 0 < (resolveParameters omega alpha rejectionFactor fiberNA).rejection_factor
    ∧ 0 < (resolveParameters omega alpha rejectionFactor fiberNA).fiber_na := by
  have h0 : (0.0 : K) = 0 := by norm_num
  simp only [resolveParameters, h0]
  refine ⟨?_, ?_, ?_, ?_⟩
  · split_ifs with h
    · norm_num
    · exact lt_of_not_ge h
  · split_ifs with h
    · norm_num
    · exact le_of_not_lt h
  · split_ifs with h
    · norm_num
    · exact lt_of_not_ge h
  · split_ifs with h
    · norm_num
    · exact lt_of_not_ge h

/-- C2. At the raw values `(1, 1, 1, 2)` the resolved `fiber_na` is the raw value 2: it is
not replaced by the default and does not lie in the open interval (0, 1). -/
theorem resolveParameters_fiber_na_above_one :
    (resolveParameters (1 : ℝ) 1 1 2).fiber_na = 2
    ∧ ¬ ((resolveParameters (1 : ℝ) 1 1 2).fiber_na < 1) := by
  constructor <;> simp only [resolveParameters] <;> norm_num

/-! ## The rejection loop -/

section Loop

variable {K : Type} [LinearOrderedField K]

/-- Candidate `k + 1` of a run is candidate `k` of the run started three draws later. -/
theorem candidate_succ (draw_xy draw_uu : UniformReal K) (gen : Gen K) (k : Nat) :
    candidate draw_xy draw_uu gen (k + 1)
      = candidate draw_xy draw_uu
          (draw_uu.draw (draw_xy.draw (draw_xy.draw gen).2).2).2 k := by
  have e1 : gen.pos + 3 * (k + 1) = gen.pos + 1 + 1 + 1 + 3 * k := by omega
  simp only [candidate, UniformReal.draw, Gen.next, e1]

/-- A run of the loop that returns stops at some iteration `k` below the fuel: the locals
hold candidate `k`, the generator has handed out `3k + 3` draws, candidate `k` passes the
acceptance test and every earlier candidate fails it. -/
theorem rejectionSampling_some (M : CMath K) (draw_xy draw_uu : UniformReal K)
    (omega2 alpha : K) (fuel : Nat) (gen : Gen K) (xx yy uu : K) (gen1 : Gen K)
    (h : rejectionSampling M draw_xy draw_uu omega2 alpha fuel gen = some (xx, yy, uu, gen1)) :
    ∃ k, k < fuel ∧ (xx, yy, uu) = candidate draw_xy draw_uu gen k
      ∧ gen1 = ⟨gen.stream, gen.pos + 3 * k + 3⟩
      ∧ uu ≤ BGGD M xx yy omega2 alpha
      ∧ ∀ j, j < k →
          BGGD M (candidate draw_xy draw_uu gen j).1 (candidate draw_xy draw_uu gen j).2.1
            omega2 alpha < (candidate draw_xy draw_uu gen j).2.2 := by
  induction fuel generalizing gen with
  | zero => simp [rejectionSampling] at h
  | succ n ih =>
    simp only [rejectionSampling] at h
    split_ifs at h with hr
    · obtain ⟨k, hk, hc, hg, hacc, hrej⟩ := ih _ h
      refine ⟨k + 1, by omega, ?_, ?_, hacc, ?_⟩
      · rw [hc, candidate_succ]
      · rw [hg]
        simp only [UniformReal.draw, Gen.next, Gen.mk.injEq, true_and]
        ring
      · intro j hj
        rcases Nat.eq_zero_or_pos j with rfl | hpos
        · simpa [candidate, UniformReal.draw, Gen.next] using hr
        · obtain ⟨i, rfl⟩ : ∃ i, j = i + 1 := ⟨j - 1, by omega⟩
          rw [candidate_succ]
          exact hrej i (by omega)
    · simp only [Option.some.injEq, Prod.mk.injEq] at h
      obtain ⟨hx, hy, hu, hg⟩ := h
      refine ⟨0, by omega, ?_, ?_, ?_, ?_⟩
      · simp only [candidate, UniformReal.draw, Gen.next, Prod.mk.injEq]
        exact ⟨hx.symm, hy.symm, hu.symm⟩
      · rw [← hg]
        simp [UniformReal.draw, Gen.next]
      · rw [← hx, ← hy, ← hu]
        simpa using hr
      · intro j hj
        omega

/-- Enough fuel gives the result: when candidate `k` passes the acceptance test, every
earlier candidate fails it and the fuel exceeds `k`, the loop returns candidate `k`. -/
theorem rejectionSampling_of_first_accepted (M : CMath K) (draw_xy draw_uu : UniformReal K)
    (omega2 alpha : K) (fuel : Nat) (gen : Gen K) (k : Nat) (hk : k < fuel)
    (hacc : (candidate draw_xy draw_uu gen k).2.2
      ≤ BGGD M (candidate draw_xy draw_uu gen k).1 (candidate draw_xy draw_uu gen k).2.1
          omega2 alpha)
    (hrej : ∀ j, j < k →
      BGGD M (candidate draw_xy draw_uu gen j).1 (candidate draw_xy draw_uu gen j).2.1
        omega2 alpha < (candidate draw_xy draw_uu gen j).2.2) :
    rejectionSampling M draw_xy draw_uu omega2 alpha fuel gen
      = some ((candidate draw_xy draw_uu gen k).1, (candidate draw_xy draw_uu gen k).2.1,
          (candidate draw_xy draw_uu gen k).2.2, ⟨gen.stream, gen.pos + 3 * k + 3⟩) := by
  induction k generalizing fuel gen with
  | zero =>
    obtain ⟨n, rfl⟩ : ∃ n, fuel = n + 1 := ⟨fuel - 1, by omega⟩
    have hna : ¬ (BGGD M (draw_xy.draw gen).1 (draw_xy.draw (draw_xy.draw gen).2).1 omega2 alpha
        < (draw_uu.draw (draw_xy.draw (draw_xy.draw gen).2).2).1) := by
      simpa [candidate, UniformReal.draw, Gen.next] using hacc
    simp only [rejectionSampling, gt_iff_lt, hna, decide_False, Bool.false_eq_true, if_false]
    simp [candidate, UniformReal.draw, Gen.next]
  | succ i ih =>
    obtain ⟨n, rfl⟩ : ∃ n, fuel = n + 1 := ⟨fuel - 1, by omega⟩
    have h0 : BGGD M (draw_xy.draw gen).1 (draw_xy.draw (draw_xy.draw gen).2).1 omega2 alpha
        < (draw_uu.draw (draw_xy.draw (draw_xy.draw gen).2).2).1 := by
      simpa [candidate, UniformReal.draw, Gen.next] using hrej 0 (by omega)
    simp only [rejectionSampling, gt_iff_lt, h0, decide_True, if_true]
    rw [candidate_succ] at hacc ⊢
    rw [ih n _ (by omega) hacc]
    · simp only [UniformReal.draw, Gen.next, Option.some.injEq, Prod.mk.injEq, Gen.mk.injEq,
        true_and]
      omega
    · intro j hj
      have := hrej (j + 1) (by omega)
      rwa [candidate_succ] at this

/-- The result of the loop does not depend on the fuel once the fuel suffices. -/
theorem rejectionSampling_fuel_mono (M : CMath K) (draw_xy draw_uu : UniformReal K)
    (omega2 alpha : K) (fuel fuel1 : Nat) (gen : Gen K) (r : K × K × K × Gen K)
    (hle : fuel ≤ fuel1)
    (h : rejectionSampling M draw_xy draw_uu omega2 alpha fuel gen = some r) :
    rejectionSampling M draw_xy draw_uu omega2 alpha fuel1 gen = some r := by
  obtain ⟨xx, yy, uu, gen1⟩ := r
  obtain ⟨k, hk, hc, hg, hacc, hrej⟩ := rejectionSampling_some _ _ _ _ _ _ _ _ _ _ _ h
  have hx : xx = (candidate draw_xy draw_uu gen k).1 := congrArg Prod.fst hc
  have hy : yy = (candidate draw_xy draw_uu gen k).2.1 :=
    congrArg (fun c : K × K × K => c.2.1) hc
  have hu : uu = (candidate draw_xy draw_uu gen k).2.2 :=
    congrArg (fun c : K × K × K => c.2.2) hc
  rw [hx, hy, hu] at hacc
  rw [rejectionSampling_of_first_accepted M draw_xy draw_uu omega2 alpha fuel1 gen k
    (by omega) hacc hrej, hx, hy, hu, hg]

end Loop

/-! ## The assembled ray -/

section Assembly

variable {K : Type} [LinearOrderedField K]

/-- A call that returns has run the rejection loop to an accepted candidate
`(xx, yy, uu)`, returns the code 0 and leaves the buffer written by `returnRay` with that
candidate and the sampled direction. -/
theorem UserSourceDefinition_some (M : CMath K) (fuel : Nat) (gen : Gen K) (data : Nat → K)
    (rc : Int) (out : Nat → K) (h : UserSourceDefinition M fuel gen data = some (rc, out)) :
    ∃ xx yy uu gen1,
      rejectionSampling M
          ⟨-(resolveParameters (data 30) (data 31) (data 32) (data 33)).rejection_factor
              * (resolveParameters (data 30) (data 31) (data 32) (data 33)).omega,
            (resolveParameters (data 30) (data 31) (data 32) (data 33)).rejection_factor
              * (resolveParameters (data 30) (data 31) (data 32) (data 33)).omega⟩
          ⟨0.0, 1.0⟩
          ((resolveParameters (data 30) (data 31) (data 32) (data 33)).omega
            * (resolveParameters (data 30) (data 31) (data 32) (data 33)).omega)
          (resolveParameters (data 30) (data 31) (data 32) (data 33)).alpha fuel gen
        = some (xx, yy, uu, gen1)
      ∧ rc = 0
      ∧ out = returnRay data xx yy
          (angularSampling M
            (resolveParameters (data 30) (data 31) (data 32) (data 33)).fiber_na gen1).1
          (angularSampling M
            (resolveParameters (data 30) (data 31) (data 32) (data 33)).fiber_na gen1).2.1
          (angularSampling M
            (resolveParameters (data 30) (data 31) (data 32) (data 33)).fiber_na gen1).2.2 := by
  simp only [UserSourceDefinition] at h
  split at h
  · simp at h
  · rename_i xx yy uu gen1 heq
    simp only [Option.some.injEq, Prod.mk.injEq] at h
    exact ⟨xx, yy, uu, gen1, heq, h.1.symm, h.2.symm⟩

/-- The result of a call does not depend on the fuel once the fuel suffices. -/
theorem UserSourceDefinition_fuel_mono (M : CMath K) (fuel fuel1 : Nat) (gen : Gen K)
    (data : Nat → K) (r : Int × (Nat → K)) (hle : fuel ≤ fuel1)
    (h : UserSourceDefinition M fuel gen data = some r) :
    UserSourceDefinition M fuel1 gen data = some r := by
  obtain ⟨rc, out⟩ := r
  obtain ⟨xx, yy, uu, gen1, hloop, hrc, hout⟩ := UserSourceDefinition_some _ _ _ _ _ _ h
  have h1 := rejectionSampling_fuel_mono _ _ _ _ _ _ _ _ _ hle hloop
  simp only [UserSourceDefinition, h1, hrc, hout]

/-- A run on the reals that returns: with all four parameter slots at 0 (so every default
applies) and every canonical draw equal to 1/2, the first candidate is the origin with
`uu = 1/2`, it is accepted, both angles are 0 and the ray `(0, 0, 0, 0, 0, 1, 1)` is
returned. -/
theorem UserSourceDefinition_centred_run :
    UserSourceDefinition realMath 1 ⟨fun _ => (1 / 2 : ℝ), 0⟩ (fun _ => 0)
      = some (0, returnRay (fun _ => 0) 0 0 0 0 1) := by
  simp only [UserSourceDefinition, resolveParameters, rejectionSampling, UniformReal.draw,
    Gen.next, BGGD, realMath, angularSampling, directionCosines]
  norm_num
  have e : (1 / 2 : ℝ) * (Real.arcsin (39 / 100) + Real.arcsin (39 / 100))
      + -Real.arcsin (39 / 100) = 0 := by ring
  rw [e]
  simp

/-- A run on the reals in which the loop retries: with default parameters and the canonical
draws 0, 0, 1/2, 1/2, 1/2, ..., the first candidate is the box corner `(-0.2, -0.2)` with
`uu = 1/2 > exp (-16)`, it is rejected, so one iteration does not suffice; the second
candidate is the origin, it is accepted and emitted. -/
theorem UserSourceDefinition_retry_run :
    UserSourceDefinition realMath 1 ⟨fun i => if i < 2 then (0 : ℝ) else 1 / 2, 0⟩
        (fun _ => 0) = none
    ∧ UserSourceDefinition realMath 2 ⟨fun i => if i < 2 then (0 : ℝ) else 1 / 2, 0⟩
        (fun _ => 0) = some (0, returnRay (fun _ => 0) 0 0 0 0 1) := by
  have hexp : Real.exp (-16) < 1 / 2 := by
    have h1 : Real.exp (-16) ≤ Real.exp (-1) := Real.exp_le_exp.mpr (by norm_num)
    have h2 : Real.exp (-1) < 1 / 2 := by
      rw [Real.exp_neg, inv_lt_comm₀ (Real.exp_pos 1) (by norm_num)]
      have := Real.exp_one_gt_d9
      norm_num at this ⊢
      linarith
    linarith
  have e : (1 / 2 : ℝ) * (Real.arcsin (39 / 100) + Real.arcsin (39 / 100))
      + -Real.arcsin (39 / 100) = 0 := by ring
  have hb : ((-(2 * (1 / 10)) * -(2 * (1 / 10)) + -(2 * (1 / 10)) * -(2 * (1 / 10)))
      / (1 / 10 * (1 / 10)) : ℝ) = 8 := by norm_num
  constructor
  · simp only [UserSourceDefinition, resolveParameters, rejectionSampling, UniformReal.draw,
      Gen.next, BGGD, realMath]
    norm_num [hb, hexp]
  · simp only [UserSourceDefinition, resolveParameters, rejectionSampling, UniformReal.draw,
      Gen.next, BGGD, realMath, angularSampling, directionCosines]
    norm_num [hb, hexp, e]

/-- The slots written by `returnRay`. -/
theorem returnRay_written (data : Nat → K) (xx yy ll mm nn : K) :
    returnRay data xx yy ll mm nn 1 = xx ∧ returnRay data xx yy ll mm nn 2 = yy
    ∧ returnRay data xx yy ll mm nn 3 = 0 ∧ returnRay data xx yy ll mm nn 4 = ll
    ∧ returnRay data xx yy ll mm nn 5 = mm ∧ returnRay data xx yy ll mm nn 6 = nn
    ∧ returnRay data xx yy ll mm nn 7 = 1 := by
  refine ⟨?_, ?_, ?_, ?_, ?_, ?_, ?_⟩ <;> simp only [returnRay, store] <;> norm_num

/-- The slots not written by `returnRay`. -/
theorem returnRay_frame (data : Nat → K) (xx yy ll mm nn : K) (i : Nat)
    (hi : i = 0 ∨ 8 ≤ i) : returnRay data xx yy ll mm nn i = data i := by
  have h1 : i ≠ 1 := by omega
  have h2 : i ≠ 2 := by omega
  have h3 : i ≠ 3 := by omega
  have h4 : i ≠ 4 := by omega
  have h5 : i ≠ 5 := by omega
  have h6 : i ≠ 6 := by omega
  have h7 : i ≠ 7 := by omega
  simp only [returnRay, store, h1, h2, h3, h4, h5, h6, h7, if_false]

end Assembly

/-! ## Emitted position -/

/-- Exact arithmetic (the reading on `ℝ`; for doubles see the binary64 section below).
For every buffer and every injected stream on which `UserSourceDefinition`
returns, the emitted position is the candidate `(xx, yy)` of some loop iteration `k` whose
auxiliary draw `uu` satisfies `uu ≤ BGGD(xx, yy, omega², alpha)`, where
`BGGD(x, y, w2, a) = exp(-2 * ((x² + y²) / w2)^a)`; and one iteration of the loop accepts
its candidate exactly when `uu ≤ density` (it rejects it exactly when `uu > density`). -/
theorem UserSourceDefinition_accepted_under_density (fuel : Nat) (gen : Gen ℝ)
    (data : Nat → ℝ) (rc : Int) (out : Nat → ℝ)
    (h : UserSourceDefinition realMath fuel gen data = some (rc, out)) :
    (∃ k xx yy uu,
      (xx, yy, uu) = candidate
        ⟨-(resolveParameters (data 30) (data 31) (data 32) (data 33)).rejection_factor
            * (resolveParameters (data 30) (data 31) (data 32) (data 33)).omega,
          (resolveParameters (data 30) (data 31) (data 32) (data 33)).rejection_factor
            * (resolveParameters (data 30) (data 31) (data 32) (data 33)).omega⟩
        ⟨0.0, 1.0⟩ gen k
      ∧ out 1 = xx ∧ out 2 = yy
      ∧ uu ≤ BGGD realMath xx yy
          ((resolveParameters (data 30) (data 31) (data 32) (data 33)).omega
            * (resolveParameters (data 30) (data 31) (data 32) (data 33)).omega)
          (resolveParameters (data 30) (data 31) (data 32) (data 33)).alpha)
    ∧ (∀ x y w2 a : ℝ, BGGD realMath x y w2 a = Real.exp (-2 * ((x ^ 2 + y ^ 2) / w2) ^ a))
    ∧ (∀ (draw_xy draw_uu : UniformReal ℝ) (w2 a : ℝ) (g : Gen ℝ),
        ((rejectionSampling realMath draw_xy draw_uu w2 a 1 g).isSome = true
          ↔ (candidate draw_xy draw_uu g 0).2.2
              ≤ BGGD realMath (candidate draw_xy draw_uu g 0).1
                  (candidate draw_xy draw_uu g 0).2.1 w2 a)
        ∧ ((rejectionSampling realMath draw_xy draw_uu w2 a 1 g).isSome = false
          ↔ (candidate draw_xy draw_uu g 0).2.2
              > BGGD realMath (candidate draw_xy draw_uu g 0).1
                  (candidate draw_xy draw_uu g 0).2.1 w2 a)) := by
  refine ⟨?_, ?_, ?_⟩
  · obtain ⟨xx, yy, uu, gen1, hloop, -, hout⟩ := UserSourceDefinition_some _ _ _ _ _ _ h
    obtain ⟨k, -, hc, -, hacc, -⟩ := rejectionSampling_some _ _ _ _ _ _ _ _ _ _ _ hloop
    refine ⟨k, xx, yy, uu, hc, ?_, ?_, hacc⟩
    · rw [hout, (returnRay_written _ _ _ _ _ _).1]
    · rw [hout, (returnRay_written _ _ _ _ _ _).2.1]
  · intro x y w2 a
    simp only [BGGD, realMath, pow_two]
  · intro draw_xy draw_uu w2 a g
    simp only [rejectionSampling, candidate, UniformReal.draw, Gen.next, Nat.mul_zero,
      Nat.add_zero, gt_iff_lt]
    constructor
    · split_ifs with hr
      · simp only [Option.isSome_none, Bool.false_eq_true, false_iff, not_le]
        simpa using hr
      · simp only [Option.isSome_some, true_iff]
        simpa using hr
    · split_ifs with hr
      · simp only [Option.isSome_none, true_iff]
        simpa using hr
      · simp only [Option.isSome_some, Bool.true_eq_false, false_iff, not_lt]
        simpa using hr

/-- An instance in exact arithmetic: the run with default parameters and all canonical draws
1/2 returns. -/
theorem UserSourceDefinition_accepted_under_density_witness :
    ∃ k xx yy uu,
      (xx, yy, uu) = candidate
        ⟨-(resolveParameters (0 : ℝ) 0 0 0).rejection_factor
            * (resolveParameters (0 : ℝ) 0 0 0).omega,
          (resolveParameters (0 : ℝ) 0 0 0).rejection_factor
            * (resolveParameters (0 : ℝ) 0 0 0).omega⟩
        ⟨0.0, 1.0⟩ ⟨fun _ => (1 / 2 : ℝ), 0⟩ k
      ∧ returnRay (fun _ => (0 : ℝ)) 0 0 0 0 1 1 = xx
      ∧ returnRay (fun _ => (0 : ℝ)) 0 0 0 0 1 2 = yy
      ∧ uu ≤ BGGD realMath xx yy
          ((resolveParameters (0 : ℝ) 0 0 0).omega * (resolveParameters (0 : ℝ) 0 0 0).omega)
          (resolveParameters (0 : ℝ) 0 0 0).alpha :=
  (UserSourceDefinition_accepted_under_density 1 ⟨fun _ => (1 / 2 : ℝ), 0⟩ (fun _ => 0) 0
    (returnRay (fun _ => 0) 0 0 0 0 1) UserSourceDefinition_centred_run).1

/-! ## Emitted direction -/

/-- The axial cosine computed by `directionCosines` on the reals is positive and at most 1,
and the three cosines are `nn * tan theta_x`, `nn * tan theta_y` and
`nn = 1 / sqrt (1 + tan² theta_x + tan² theta_y)`. -/
theorem directionCosines_real (thetaX thetaY : ℝ) :
    (directionCosines realMath thetaX thetaY).2.2
        = 1 / Real.sqrt (1 + Real.tan thetaX ^ 2 + Real.tan thetaY ^ 2)
    ∧ (directionCosines realMath thetaX thetaY).1
        = (directionCosines realMath thetaX thetaY).2.2 * Real.tan thetaX
    ∧ (directionCosines realMath thetaX thetaY).2.1
        = (directionCosines realMath thetaX thetaY).2.2 * Real.tan thetaY
    ∧ 0 < (directionCosines realMath thetaX thetaY).2.2
    ∧ (directionCosines realMath thetaX thetaY).2.2 ≤ 1 := by
  have hpos : 0 < 1 + Real.tan thetaX ^ 2 + Real.tan thetaY ^ 2 := by positivity
  have hone : 1 ≤ Real.sqrt (1 + Real.tan thetaX ^ 2 + Real.tan thetaY ^ 2) := by
    rw [Real.one_le_sqrt]
    nlinarith [sq_nonneg (Real.tan thetaX), sq_nonneg (Real.tan thetaY)]
  have e : (1.0 : ℝ) + Real.tan thetaX * Real.tan thetaX + Real.tan thetaY * Real.tan thetaY
      = 1 + Real.tan thetaX ^ 2 + Real.tan thetaY ^ 2 := by norm_num [pow_two]
  have e1 : (1.0 : ℝ) = 1 := by norm_num
  simp only [directionCosines, realMath, e]
  rw [e1]
  refine ⟨rfl, trivial, trivial, ?_, ?_⟩
  · exact div_pos one_pos (Real.sqrt_pos.mpr hpos)
  · rw [div_le_one (Real.sqrt_pos.mpr hpos)]
    exact hone

/-- C6. For every `fiberNA` in (0, 1) and all angles `thetaX`, `thetaY` in
`[-arcsin fiberNA, arcsin fiberNA]`, the direction `n = 1 / sqrt(1 + tan² thetaX + tan² thetaY)`,
`l = n * tan thetaX`, `m = n * tan thetaY` computed by `UserSourceDefinition` satisfies
`l² + m² + n² = 1` exactly over the reals, and `n > 0`. -/
theorem directionCosines_unit_forward (fiberNA thetaX thetaY : ℝ)
    (_hNA : 0 < fiberNA ∧ fiberNA < 1)
    (_hX : -Real.arcsin fiberNA ≤ thetaX ∧ thetaX ≤ Real.arcsin fiberNA)
    (_hY : -Real.arcsin fiberNA ≤ thetaY ∧ thetaY ≤ Real.arcsin fiberNA) :
    (directionCosines realMath thetaX thetaY).2.2
        = 1 / Real.sqrt (1 + Real.tan thetaX ^ 2 + Real.tan thetaY ^ 2)
    ∧ (directionCosines realMath thetaX thetaY).1
        = (directionCosines realMath thetaX thetaY).2.2 * Real.tan thetaX
    ∧ (directionCosines realMath thetaX thetaY).2.1
        = (directionCosines realMath thetaX thetaY).2.2 * Real.tan thetaY
    ∧ (directionCosines realMath thetaX thetaY).1 ^ 2
        + (directionCosines realMath thetaX thetaY).2.1 ^ 2
        + (directionCosines realMath thetaX thetaY).2.2 ^ 2 = 1
    ∧ 0 < (directionCosines realMath thetaX thetaY).2.2 := by
  obtain ⟨hn, hl, hm, hpos, -⟩ := directionCosines_real thetaX thetaY
  refine ⟨hn, hl, hm, ?_, hpos⟩
  have hT : 0 < 1 + Real.tan thetaX ^ 2 + Real.tan thetaY ^ 2 := by positivity
  have hsq : (directionCosines realMath thetaX thetaY).2.2 ^ 2
      * (1 + Real.tan thetaX ^ 2 + Real.tan thetaY ^ 2) = 1 := by
    rw [hn, div_pow, Real.sq_sqrt hT.le, one_pow]
    exact one_div_mul_cancel hT.ne.symm
  rw [hl, hm]
  nlinarith [hsq]

/-- Witness of C6: `fiberNA = 1/2` and both angles 0. -/
theorem directionCosines_unit_forward_witness :
    ((0 : ℝ) < 1 / 2 ∧ (1 / 2 : ℝ) < 1)
    ∧ (directionCosines realMath 0 0).1 ^ 2 + (directionCosines realMath 0 0).2.1 ^ 2
        + (directionCosines realMath 0 0).2.2 ^ 2 = 1
    ∧ 0 < (directionCosines realMath 0 0).2.2 :=
  have h0 : -Real.arcsin (1 / 2) ≤ (0 : ℝ) ∧ (0 : ℝ) ≤ Real.arcsin (1 / 2) := by
    have h : 0 ≤ Real.arcsin (1 / 2) := Real.arcsin_nonneg.mpr (by norm_num)
    exact ⟨by linarith, h⟩
  ⟨by norm_num,
    (directionCosines_unit_forward (1 / 2) 0 0 (by norm_num) h0 h0).2.2.2⟩

/-- For `fiberNA` in (0, 1) and `T ≥ 0`, the angle `arccos (1 / sqrt (1 + T))` is within
the half-cone angle exactly when `sqrt (1 - fiberNA²) ≤ 1 / sqrt (1 + T)`, and exactly when
`T ≤ tan² (arcsin fiberNA)`. -/
theorem arccos_axial_le_iff (fiberNA T : ℝ) (hNA : 0 < fiberNA ∧ fiberNA < 1) (hT : 0 ≤ T) :
    (Real.arccos (1 / Real.sqrt (1 + T)) ≤ Real.arcsin fiberNA
        ↔ Real.sqrt (1 - fiberNA ^ 2) ≤ 1 / Real.sqrt (1 + T))
    ∧ (Real.sqrt (1 - fiberNA ^ 2) ≤ 1 / Real.sqrt (1 + T)
        ↔ T ≤ Real.tan (Real.arcsin fiberNA) ^ 2) := by
  have hc : 0 < 1 - fiberNA ^ 2 := by nlinarith [hNA.1, hNA.2]
  have hS : 0 < Real.sqrt (1 + T) := Real.sqrt_pos.mpr (by linarith)
  have hS1 : 1 ≤ Real.sqrt (1 + T) := by
    rw [Real.one_le_sqrt]
    linarith
  have ha : 1 / Real.sqrt (1 + T) ∈ Set.Icc (-1 : ℝ) 1 := by
    constructor
    · have := div_pos one_pos hS
      linarith
    · rw [div_le_one hS]
      exact hS1
  have hcI : Real.sqrt (1 - fiberNA ^ 2) ∈ Set.Icc (-1 : ℝ) 1 := by
    constructor
    · have := Real.sqrt_nonneg (1 - fiberNA ^ 2)
      linarith
    · rw [Real.sqrt_le_left zero_le_one]
      nlinarith [hNA.1]
  constructor
  · rw [Real.arcsin_eq_arccos hNA.1.le]
    exact Real.strictAntiOn_arccos.le_iff_le ha hcI
  · rw [Real.tan_arcsin, div_pow, Real.sq_sqrt hc.le, le_div_iff₀ hS, le_div_iff₀ hc,
      ← Real.sqrt_mul hc.le, Real.sqrt_le_left zero_le_one]
    constructor <;> intro h <;> nlinarith

/-- For `fiberNA` in (0, 1) and `theta` in `[-arcsin fiberNA, arcsin fiberNA]`,
`|tan theta| ≤ tan (arcsin fiberNA)`. -/
theorem abs_tan_le_tan_half_cone (fiberNA theta : ℝ) (hNA : 0 < fiberNA ∧ fiberNA < 1)
    (hth : -Real.arcsin fiberNA ≤ theta ∧ theta ≤ Real.arcsin fiberNA) :
    |Real.tan theta| ≤ Real.tan (Real.arcsin fiberNA) := by
  have hlt : Real.arcsin fiberNA < Real.pi / 2 := Real.arcsin_lt_pi_div_two.mpr hNA.2
  have hpos : 0 < Real.arcsin fiberNA := Real.arcsin_pos.mpr hNA.1
  have hh : Real.arcsin fiberNA ∈ Set.Ioo (-(Real.pi / 2)) (Real.pi / 2) :=
    ⟨by linarith, hlt⟩
  have hnh : -Real.arcsin fiberNA ∈ Set.Ioo (-(Real.pi / 2)) (Real.pi / 2) :=
    ⟨by linarith, by linarith⟩
  have ht : theta ∈ Set.Ioo (-(Real.pi / 2)) (Real.pi / 2) :=
    ⟨by linarith [hth.1], by linarith [hth.2]⟩
  have hmono := Real.strictMonoOn_tan.monotoneOn
  have hup : Real.tan theta ≤ Real.tan (Real.arcsin fiberNA) := hmono ht hh hth.2
  have hlo : Real.tan (-Real.arcsin fiberNA) ≤ Real.tan theta := hmono hnh ht hth.1
  rw [Real.tan_neg] at hlo
  exact abs_le.mpr ⟨hlo, hup⟩

/-- C7, counterexample. For `fiberNA = 3/5` and `thetaX = thetaY = arcsin (3/5)`, which lie
in the sampled range, the angle `arccos n` between the computed direction and the optical
axis exceeds the half-cone angle `arcsin (3/5)`, and `n < sqrt (1 - (3/5)²)`. -/
theorem directionCosines_corner_exceeds_half_cone :
    ((0 : ℝ) < 3 / 5 ∧ (3 / 5 : ℝ) < 1)
    ∧ (-Real.arcsin (3 / 5) ≤ Real.arcsin (3 / 5)
        ∧ Real.arcsin (3 / 5) ≤ Real.arcsin (3 / 5))
    ∧ ¬ (Real.arccos
          (directionCosines realMath (Real.arcsin (3 / 5)) (Real.arcsin (3 / 5))).2.2
        ≤ Real.arcsin (3 / 5))
    ∧ ¬ (Real.sqrt (1 - (3 / 5 : ℝ) ^ 2)
        ≤ (directionCosines realMath (Real.arcsin (3 / 5)) (Real.arcsin (3 / 5))).2.2) := by
  have hNA : (0 : ℝ) < 3 / 5 ∧ (3 / 5 : ℝ) < 1 := by norm_num
  have hpos : 0 < Real.arcsin (3 / 5) := Real.arcsin_pos.mpr hNA.1
  have htan : 0 < Real.tan (Real.arcsin (3 / 5)) :=
    Real.tan_pos_of_pos_of_lt_pi_div_two hpos (Real.arcsin_lt_pi_div_two.mpr hNA.2)
  have hT : 0 ≤ Real.tan (Real.arcsin (3 / 5)) ^ 2 + Real.tan (Real.arcsin (3 / 5)) ^ 2 := by
    positivity
  obtain ⟨h1, h2⟩ := arccos_axial_le_iff (3 / 5)
    (Real.tan (Real.arcsin (3 / 5)) ^ 2 + Real.tan (Real.arcsin (3 / 5)) ^ 2) hNA hT
  have hn := (directionCosines_real (Real.arcsin (3 / 5)) (Real.arcsin (3 / 5))).1
  rw [add_assoc] at hn
  have hfar : ¬ (Real.tan (Real.arcsin (3 / 5)) ^ 2 + Real.tan (Real.arcsin (3 / 5)) ^ 2
      ≤ Real.tan (Real.arcsin (3 / 5)) ^ 2) := by
    have := pow_pos htan 2
    linarith
  refine ⟨hNA, ⟨by linarith, le_refl _⟩, ?_, ?_⟩
  · rw [hn, h1, h2]
    exact hfar
  · rw [hn, h2]
    exact hfar

/-- C7, amended. For every `fiberNA` in (0, 1) and all angles `thetaX`, `thetaY` in
`[-arcsin fiberNA, arcsin fiberNA]`: the angle `arccos n` between the computed direction and
the optical axis is within the half-cone angle exactly when `n ≥ sqrt (1 - fiberNA²)`, and
exactly when `tan² thetaX + tan² thetaY ≤ tan² (arcsin fiberNA)`; this holds whenever one of
the two angles is 0; and for all angles of the range the two transverse cosines obey the
tangent bound `|l| ≤ n * tan (arcsin fiberNA)` and `|m| ≤ n * tan (arcsin fiberNA)`. -/
theorem directionCosines_tangent_cone (fiberNA thetaX thetaY : ℝ)
    (hNA : 0 < fiberNA ∧ fiberNA < 1)
    (hX : -Real.arcsin fiberNA ≤ thetaX ∧ thetaX ≤ Real.arcsin fiberNA)
    (hY : -Real.arcsin fiberNA ≤ thetaY ∧ thetaY ≤ Real.arcsin fiberNA) :
    (Real.arccos (directionCosines realMath thetaX thetaY).2.2 ≤ Real.arcsin fiberNA
        ↔ Real.sqrt (1 - fiberNA ^ 2) ≤ (directionCosines realMath thetaX thetaY).2.2)
    ∧ (Real.arccos (directionCosines realMath thetaX thetaY).2.2 ≤ Real.arcsin fiberNA
        ↔ Real.tan thetaX ^ 2 + Real.tan thetaY ^ 2 ≤ Real.tan (Real.arcsin fiberNA) ^ 2)
    ∧ ((thetaX = 0 ∨ thetaY = 0)
        → Real.arccos (directionCosines realMath thetaX thetaY).2.2 ≤ Real.arcsin fiberNA)
    ∧ |(directionCosines realMath thetaX thetaY).1|
        ≤ (directionCosines realMath thetaX thetaY).2.2 * Real.tan (Real.arcsin fiberNA)
    ∧ |(directionCosines realMath thetaX thetaY).2.1|
        ≤ (directionCosines realMath thetaX thetaY).2.2 * Real.tan (Real.arcsin fiberNA) := by
  obtain ⟨hn, hl, hm, hpos, -⟩ := directionCosines_real thetaX thetaY
  have hT : 0 ≤ Real.tan thetaX ^ 2 + Real.tan thetaY ^ 2 := by positivity
  obtain ⟨h1, h2⟩ := arccos_axial_le_iff fiberNA
    (Real.tan thetaX ^ 2 + Real.tan thetaY ^ 2) hNA hT
  rw [add_assoc] at hn
  rw [← hn] at h1 h2
  have hx := abs_tan_le_tan_half_cone fiberNA thetaX hNA hX
  have hy := abs_tan_le_tan_half_cone fiberNA thetaY hNA hY
  refine ⟨h1, h1.trans h2, ?_, ?_, ?_⟩
  · intro h0
    rw [h1, h2]
    rcases h0 with h0 | h0
    · rw [h0, Real.tan_zero]
      have := sq_le_sq.mpr (by rwa [abs_of_nonneg ((abs_nonneg _).trans hy)] :
        |Real.tan thetaY| ≤ |Real.tan (Real.arcsin fiberNA)|)
      linarith
    · rw [h0, Real.tan_zero]
      have := sq_le_sq.mpr (by rwa [abs_of_nonneg ((abs_nonneg _).trans hx)] :
        |Real.tan thetaX| ≤ |Real.tan (Real.arcsin fiberNA)|)
      linarith
  · rw [hl, abs_mul, abs_of_pos hpos]
    exact mul_le_mul_of_nonneg_left hx hpos.le
  · rw [hm, abs_mul, abs_of_pos hpos]
    exact mul_le_mul_of_nonneg_left hy hpos.le

/-- Witness of the amended C7: `fiberNA = 1/2` and both angles 0. -/
theorem directionCosines_tangent_cone_witness :
    ((0 : ℝ) < 1 / 2 ∧ (1 / 2 : ℝ) < 1)
    ∧ (-Real.arcsin (1 / 2) ≤ (0 : ℝ) ∧ (0 : ℝ) ≤ Real.arcsin (1 / 2))
    ∧ Real.arccos (directionCosines realMath 0 0).2.2 ≤ Real.arcsin (1 / 2)
    ∧ |(directionCosines realMath 0 0).1|
        ≤ (directionCosines realMath 0 0).2.2 * Real.tan (Real.arcsin (1 / 2)) :=
  have h0 : -Real.arcsin (1 / 2) ≤ (0 : ℝ) ∧ (0 : ℝ) ≤ Real.arcsin (1 / 2) := by
    have h : 0 ≤ Real.arcsin (1 / 2) := Real.arcsin_nonneg.mpr (by norm_num)
    exact ⟨by linarith, h⟩
  ⟨by norm_num, h0,
    (directionCosines_tangent_cone (1 / 2) 0 0 (by norm_num) h0 h0).2.2.1 (Or.inl rfl),
    (directionCosines_tangent_cone (1 / 2) 0 0 (by norm_num) h0 h0).2.2.2.1⟩

/-! ## Output slots, frame and return code

The theorems of this section hold for every linearly ordered field `K` and every reading
`M` of the `<cmath>` functions. -/

/-- C8. Whenever `UserSourceDefinition` returns, the seven output slots hold
`(xx, yy, 0, l, m, n, 1)`: `data[1]`, `data[2]` are the position `(xx, yy)` of the loop
iteration `k` that stopped the loop, `data[3]` is 0, `data[4]`, `data[5]`, `data[6]` are
the direction cosines computed from the two draws that follow the loop, and `data[7]`
is 1. -/
theorem UserSourceDefinition_output_slots {K : Type} [LinearOrderedField K] (M : CMath K)
    (fuel : Nat) (gen : Gen K) (data : Nat → K) (rc : Int) (out : Nat → K)
    (h : UserSourceDefinition M fuel gen data = some (rc, out)) :
    ∃ k, k < fuel
      ∧ out 1 = (candidate
          ⟨-(resolveParameters (data 30) (data 31) (data 32) (data 33)).rejection_factor
              * (resolveParameters (data 30) (data 31) (data 32) (data 33)).omega,
            (resolveParameters (data 30) (data 31) (data 32) (data 33)).rejection_factor
              * (resolveParameters (data 30) (data 31) (data 32) (data 33)).omega⟩
          ⟨0.0, 1.0⟩ gen k).1
      ∧ out 2 = (candidate
          ⟨-(resolveParameters (data 30) (data 31) (data 32) (data 33)).rejection_factor
              * (resolveParameters (data 30) (data 31) (data 32) (data 33)).omega,
            (resolveParameters (data 30) (data 31) (data 32) (data 33)).rejection_factor
              * (resolveParameters (data 30) (data 31) (data 32) (data 33)).omega⟩
          ⟨0.0, 1.0⟩ gen k).2.1
      ∧ out 3 = 0
      ∧ out 4 = (angularSampling M
          (resolveParameters (data 30) (data 31) (data 32) (data 33)).fiber_na
          ⟨gen.stream, gen.pos + 3 * k + 3⟩).1
      ∧ out 5 = (angularSampling M
          (resolveParameters (data 30) (data 31) (data 32) (data 33)).fiber_na
          ⟨gen.stream, gen.pos + 3 * k + 3⟩).2.1
      ∧ out 6 = (angularSampling M
          (resolveParameters (data 30) (data 31) (data 32) (data 33)).fiber_na
          ⟨gen.stream, gen.pos + 3 * k + 3⟩).2.2
      ∧ out 7 = 1 := by
  obtain ⟨xx, yy, uu, gen1, hloop, -, hout⟩ := UserSourceDefinition_some _ _ _ _ _ _ h
  obtain ⟨k, hk, hc, hg, -, -⟩ := rejectionSampling_some _ _ _ _ _ _ _ _ _ _ _ hloop
  obtain ⟨w1, w2, w3, w4, w5, w6, w7⟩ := returnRay_written data xx yy
    (angularSampling M
      (resolveParameters (data 30) (data 31) (data 32) (data 33)).fiber_na gen1).1
    (angularSampling M
      (resolveParameters (data 30) (data 31) (data 32) (data 33)).fiber_na gen1).2.1
    (angularSampling M
      (resolveParameters (data 30) (data 31) (data 32) (data 33)).fiber_na gen1).2.2
  rw [← hout] at w1 w2 w3 w4 w5 w6 w7
  rw [hg] at w4 w5 w6
  refine ⟨k, hk, ?_, ?_, w3, w4, w5, w6, w7⟩
  · rw [w1, ← hc]
  · rw [w2, ← hc]

/-- Witness of C8: the run with default parameters and all canonical draws 1/2 returns. -/
theorem UserSourceDefinition_output_slots_witness :
    ∃ k, k < 1
      ∧ returnRay (fun _ => (0 : ℝ)) 0 0 0 0 1 1 = (candidate
          ⟨-(resolveParameters (0 : ℝ) 0 0 0).rejection_factor
              * (resolveParameters (0 : ℝ) 0 0 0).omega,
            (resolveParameters (0 : ℝ) 0 0 0).rejection_factor
              * (resolveParameters (0 : ℝ) 0 0 0).omega⟩
          ⟨0.0, 1.0⟩ ⟨fun _ => (1 / 2 : ℝ), 0⟩ k).1
      ∧ returnRay (fun _ => (0 : ℝ)) 0 0 0 0 1 2 = (candidate
          ⟨-(resolveParameters (0 : ℝ) 0 0 0).rejection_factor
              * (resolveParameters (0 : ℝ) 0 0 0).omega,
            (resolveParameters (0 : ℝ) 0 0 0).rejection_factor
              * (resolveParameters (0 : ℝ) 0 0 0).omega⟩
          ⟨0.0, 1.0⟩ ⟨fun _ => (1 / 2 : ℝ), 0⟩ k).2.1
      ∧ returnRay (fun _ => (0 : ℝ)) 0 0 0 0 1 3 = 0
      ∧ returnRay (fun _ => (0 : ℝ)) 0 0 0 0 1 4 = (angularSampling realMath
          (resolveParameters (0 : ℝ) 0 0 0).fiber_na ⟨fun _ => (1 / 2 : ℝ), 0 + 3 * k + 3⟩).1
      ∧ returnRay (fun _ => (0 : ℝ)) 0 0 0 0 1 5 = (angularSampling realMath
          (resolveParameters (0 : ℝ) 0 0 0).fiber_na ⟨fun _ => (1 / 2 : ℝ), 0 + 3 * k + 3⟩).2.1
      ∧ returnRay (fun _ => (0 : ℝ)) 0 0 0 0 1 6 = (angularSampling realMath
          (resolveParameters (0 : ℝ) 0 0 0).fiber_na ⟨fun _ => (1 / 2 : ℝ), 0 + 3 * k + 3⟩).2.2
      ∧ returnRay (fun _ => (0 : ℝ)) 0 0 0 0 1 7 = 1 :=
  UserSourceDefinition_output_slots realMath 1 ⟨fun _ => (1 / 2 : ℝ), 0⟩ (fun _ => 0) 0
    (returnRay (fun _ => 0) 0 0 0 0 1) UserSourceDefinition_centred_run

/-- C9. `UserSourceDefinition` overwrites only `data[1]` to `data[7]`: whenever it returns,
slot 0 and every slot from 8 on hold their value from before the call, in particular the
wavelength `data[20]`, the unit scale `data[21]`, the seed `data[22]` and the user
parameters `data[30]` to `data[33]`, also when a default was substituted internally. -/
theorem UserSourceDefinition_frame {K : Type} [LinearOrderedField K] (M : CMath K)
    (fuel : Nat) (gen : Gen K) (data : Nat → K) (rc : Int) (out : Nat → K)
    (h : UserSourceDefinition M fuel gen data = some (rc, out)) :
    (∀ i, i = 0 ∨ 8 ≤ i → out i = data i)
    ∧ out 0 = data 0 ∧ out 8 = data 8 ∧ out 20 = data 20 ∧ out 21 = data 21
    ∧ out 22 = data 22 ∧ out 30 = data 30 ∧ out 31 = data 31 ∧ out 32 = data 32
    ∧ out 33 = data 33 := by
  obtain ⟨xx, yy, uu, gen1, -, -, hout⟩ := UserSourceDefinition_some _ _ _ _ _ _ h
  have hframe : ∀ i, i = 0 ∨ 8 ≤ i → out i = data i := by
    intro i hi
    rw [hout]
    exact returnRay_frame _ _ _ _ _ _ i hi
  exact ⟨hframe, hframe 0 (by omega), hframe 8 (by omega), hframe 20 (by omega),
    hframe 21 (by omega), hframe 22 (by omega), hframe 30 (by omega), hframe 31 (by omega),
    hframe 32 (by omega), hframe 33 (by omega)⟩

/-- Witness of C9: the run with default parameters (every raw parameter 0, so every one is
replaced internally) and all canonical draws 1/2 returns, and the parameter slots still
hold 0. -/
theorem UserSourceDefinition_frame_witness :
    returnRay (fun _ => (0 : ℝ)) 0 0 0 0 1 30 = (fun _ => (0 : ℝ)) 30
    ∧ returnRay (fun _ => (0 : ℝ)) 0 0 0 0 1 33 = (fun _ => (0 : ℝ)) 33 :=
  ⟨(UserSourceDefinition_frame realMath 1 ⟨fun _ => (1 / 2 : ℝ), 0⟩ (fun _ => 0) 0
      (returnRay (fun _ => 0) 0 0 0 0 1) UserSourceDefinition_centred_run).2.2.2.2.2.2.1,
    (UserSourceDefinition_frame realMath 1 ⟨fun _ => (1 / 2 : ℝ), 0⟩ (fun _ => 0) 0
      (returnRay (fun _ => 0) 0 0 0 0 1) UserSourceDefinition_centred_run).2.2.2.2.2.2.2.2.2⟩

/-- C10. The failure code is never emitted: whenever `UserSourceDefinition` returns, its
return value is 0 and not -1; and `UserParamNames` returns 0 for every buffer. -/
theorem return_code_is_zero {K : Type} [LinearOrderedField K] (M : CMath K)
    (fuel : Nat) (gen : Gen K) (data : Nat → K) (rc : Int) (out : Nat → K)
    (h : UserSourceDefinition M fuel gen data = some (rc, out)) :
    rc = 0 ∧ rc ≠ -1 ∧ ∀ names : Nat → Int, (UserParamNames names).1 = 0 := by
  obtain ⟨xx, yy, uu, gen1, -, hrc, -⟩ := UserSourceDefinition_some _ _ _ _ _ _ h
  refine ⟨hrc, by omega, ?_⟩
  intro names
  rfl

/-- Witness of C10: the run with default parameters and all canonical draws 1/2 returns,
with code 0. -/
theorem return_code_is_zero_witness :
    UserSourceDefinition realMath 1 ⟨fun _ => (1 / 2 : ℝ), 0⟩ (fun _ => 0)
        = some (0, returnRay (fun _ => 0) 0 0 0 0 1)
    ∧ (0 : Int) = 0 ∧ (0 : Int) ≠ -1 ∧ ∀ names : Nat → Int, (UserParamNames names).1 = 0 :=
  ⟨UserSourceDefinition_centred_run,
    return_code_is_zero realMath 1 ⟨fun _ => (1 / 2 : ℝ), 0⟩ (fun _ => 0) 0
      (returnRay (fun _ => 0) 0 0 0 0 1) UserSourceDefinition_centred_run⟩

/-! ## Parameter names -/

/-- C3. For every index byte (in the range of a signed or an unsigned `char`),
`UserParamNames` leaves at the first byte of the buffer the NUL-terminated name of the
table: "Omega" for 1, "Alpha" for 2, "Rejection grid factor" for 3, "Fiber NA" for 4 and
the empty string for every other index, negative ones included. -/
theorem UserParamNames_writes_table_name (data : Nat → Int) (cap : Nat)
    (hlo : -128 ≤ data 0) (hhi : data 0 ≤ 255) (hcap : 22 ≤ cap) :
    readCString (UserParamNames data).2 cap 0
      = some (cBytes (ParameterNameRegistry (data 0))) := by
  obtain ⟨c, rfl⟩ : ∃ c, cap = c + 22 := ⟨cap - 22, by omega⟩
  by_cases h1 : data 0 = 1
  · simp [UserParamNames, ParameterNameRegistry, h1, strcpy_s, writeBytes, cBytes,
      readCString]
  by_cases h2 : data 0 = 2
  · simp [UserParamNames, ParameterNameRegistry, h2, strcpy_s, writeBytes, cBytes,
      readCString]
  by_cases h3 : data 0 = 3
  · simp [UserParamNames, ParameterNameRegistry, h3, strcpy_s, writeBytes, cBytes,
      readCString]
  by_cases h4 : data 0 = 4
  · simp [UserParamNames, ParameterNameRegistry, h4, strcpy_s, writeBytes, cBytes,
      readCString]
  have e1 : (data 0 % 256).toNat ≠ 1 := by omega
  have e2 : (data 0 % 256).toNat ≠ 2 := by omega
  have e3 : (data 0 % 256).toNat ≠ 3 := by omega
  have e4 : (data 0 % 256).toNat ≠ 4 := by omega
  simp [UserParamNames, ParameterNameRegistry, h1, h2, h3, h4, e1, e2, e3, e4, strcpy_s,
    writeBytes, cBytes, readCString]

/-- Witness of C3: index 3 yields "Rejection grid factor" in a buffer otherwise filled with
the byte 65, and the negative index -3 yields the empty string. -/
theorem UserParamNames_writes_table_name_witness :
    readCString (UserParamNames (fun i => if i = 0 then 3 else 65)).2 32 0
        = some (cBytes "Rejection grid factor")
    ∧ readCString (UserParamNames (fun i => if i = 0 then -3 else 65)).2 32 0
        = some (cBytes "") :=
  ⟨UserParamNames_writes_table_name (fun i => if i = 0 then 3 else 65) 32
      (by decide) (by decide) (by decide),
    UserParamNames_writes_table_name (fun i => if i = 0 then -3 else 65) 32
      (by decide) (by decide) (by decide)⟩

/-! ## The BGGD density -/

/-- The density on the reals: `exp (-2 * ((x² + y²) / w2) ^ a)`. -/
theorem BGGD_real (x y w2 a : ℝ) :
    BGGD realMath x y w2 a = Real.exp (-2 * ((x ^ 2 + y ^ 2) / w2) ^ a) := by
  simp only [BGGD, realMath, pow_two]

/-- The base of the power in `BGGD` is non-negative when `omega ≠ 0`. -/
theorem BGGD_base_nonneg (xx yy omega : ℝ) :
    0 ≤ (xx ^ 2 + yy ^ 2) / (omega * omega) :=
  div_nonneg (by positivity) (mul_self_nonneg omega)

/-- The density lies in `(0, 1]`. -/
theorem BGGD_pos_le_one (xx yy omega alpha : ℝ) :
    0 < BGGD realMath xx yy (omega * omega) alpha
    ∧ BGGD realMath xx yy (omega * omega) alpha ≤ 1 := by
  rw [BGGD_real]
  refine ⟨Real.exp_pos _, ?_⟩
  rw [Real.exp_le_one_iff]
  have := Real.rpow_nonneg (BGGD_base_nonneg xx yy omega) alpha
  linarith

/-- The density is 1 at the origin only. -/
theorem BGGD_eq_one_iff (xx yy omega alpha : ℝ) (homega : 0 < omega) (halpha : 1 ≤ alpha) :
    BGGD realMath xx yy (omega * omega) alpha = 1 ↔ xx = 0 ∧ yy = 0 := by
  have hw : 0 < omega * omega := mul_pos homega homega
  rw [BGGD_real, Real.exp_eq_one_iff, mul_eq_zero,
    Real.rpow_eq_zero_iff_of_nonneg (BGGD_base_nonneg xx yy omega), div_eq_zero_iff]
  constructor
  · rintro (h | ⟨h | h, -⟩)
    · norm_num at h
    · constructor <;> nlinarith [sq_nonneg xx, sq_nonneg yy]
    · exact absurd h hw.ne.symm
  · rintro ⟨rfl, rfl⟩
    right
    exact ⟨Or.inl (by norm_num), by linarith⟩

/-- Exact arithmetic (the reading on `ℝ`, where `std::exp` and `std::pow` are the real
functions; the values these calls return on doubles are not fixed by the source). The
density is a rejection envelope of height 1: for every `omega > 0`,
`alpha ≥ 1` and all real `xx`, `yy`, `0 < BGGD(xx, yy, omega², alpha) ≤ 1`, with value 1
exactly at `xx = 0`, `yy = 0`; so a candidate at the origin passes the acceptance test
`uu ≤ density` (the loop's `uu > density` is false) for every `uu` in `[0, 1]`. -/
theorem BGGD_envelope (omega alpha xx yy : ℝ) (homega : 0 < omega) (halpha : 1 ≤ alpha) :
    0 < BGGD realMath xx yy (omega * omega) alpha
    ∧ BGGD realMath xx yy (omega * omega) alpha ≤ 1
    ∧ (BGGD realMath xx yy (omega * omega) alpha = 1 ↔ xx = 0 ∧ yy = 0)
    ∧ ∀ uu : ℝ, 0 ≤ uu ∧ uu ≤ 1 →
        uu ≤ BGGD realMath 0 0 (omega * omega) alpha
        ∧ decide (uu > BGGD realMath 0 0 (omega * omega) alpha) = false := by
  refine ⟨(BGGD_pos_le_one xx yy omega alpha).1, (BGGD_pos_le_one xx yy omega alpha).2,
    BGGD_eq_one_iff xx yy omega alpha homega halpha, ?_⟩
  intro uu huu
  have h1 : BGGD realMath 0 0 (omega * omega) alpha = 1 :=
    (BGGD_eq_one_iff 0 0 omega alpha homega halpha).mpr ⟨rfl, rfl⟩
  rw [h1]
  exact ⟨huu.2, by simpa using huu.2⟩

/-- An instance in exact arithmetic: `omega = 1`, `alpha = 1` at the point `(1, 0)`. -/
theorem BGGD_envelope_witness :
    ((0 : ℝ) < 1 ∧ (1 : ℝ) ≤ 1)
    ∧ 0 < BGGD realMath 1 0 (1 * 1) 1 ∧ BGGD realMath 1 0 (1 * 1) 1 ≤ 1 :=
  ⟨by norm_num, (BGGD_envelope 1 1 1 0 (by norm_num) (by norm_num)).1,
    (BGGD_envelope 1 1 1 0 (by norm_num) (by norm_num)).2.1⟩

/-- C15. With `alpha = 1` the density is a Gaussian: for every `omega > 0` and all real
`xx`, `yy`, `BGGD(xx, yy, omega², 1) = exp(-2 (xx² + yy²) / omega²)`, which is the product
`exp(-2 xx² / omega²) * exp(-2 yy² / omega²)` of two one-dimensional Gaussians. -/
theorem BGGD_alpha_one_gaussian (omega xx yy : ℝ) (_homega : 0 < omega) :
    BGGD realMath xx yy (omega ^ 2) 1 = Real.exp (-2 * (xx ^ 2 + yy ^ 2) / omega ^ 2)
    ∧ BGGD realMath xx yy (omega ^ 2) 1
        = Real.exp (-2 * xx ^ 2 / omega ^ 2) * Real.exp (-2 * yy ^ 2 / omega ^ 2)
    ∧ BGGD realMath xx yy (omega * omega) 1
        = Real.exp (-2 * xx ^ 2 / omega ^ 2) * Real.exp (-2 * yy ^ 2 / omega ^ 2) := by
  have e1 : BGGD realMath xx yy (omega ^ 2) 1
      = Real.exp (-2 * (xx ^ 2 + yy ^ 2) / omega ^ 2) := by
    rw [BGGD_real, Real.rpow_one, mul_div_assoc]
  have e2 : Real.exp (-2 * (xx ^ 2 + yy ^ 2) / omega ^ 2)
      = Real.exp (-2 * xx ^ 2 / omega ^ 2) * Real.exp (-2 * yy ^ 2 / omega ^ 2) := by
    rw [← Real.exp_add]
    congr 1
    ring
  refine ⟨e1, e1.trans e2, ?_⟩
  rw [← pow_two, e1, e2]

/-- Witness of C15: `omega = 2` at the point `(1, 3)`. -/
theorem BGGD_alpha_one_gaussian_witness :
    (0 : ℝ) < 2
    ∧ BGGD realMath 1 3 (2 ^ 2) 1
        = Real.exp (-2 * 1 ^ 2 / 2 ^ 2) * Real.exp (-2 * 3 ^ 2 / 2 ^ 2) :=
  ⟨by norm_num, (BGGD_alpha_one_gaussian 2 1 3 (by norm_num)).2.1⟩

/-- C16. Larger `alpha` gives a flatter top and a steeper edge: for every `omega > 0`,
all `1 ≤ alpha1 ≤ alpha2` and all real `xx`, `yy`, inside the circle `xx² + yy² ≤ omega²`
the density with `alpha2` is at least the density with `alpha1`, outside it
(`xx² + yy² ≥ omega²`) it is at most that, and on the circle `xx² + yy² = omega²` the
density is `exp(-2)` for every `alpha`. -/
theorem BGGD_alpha_monotone (omega alpha1 alpha2 xx yy : ℝ) (homega : 0 < omega)
    (h1 : 1 ≤ alpha1) (h12 : alpha1 ≤ alpha2) :
    (xx ^ 2 + yy ^ 2 ≤ omega ^ 2 →
        BGGD realMath xx yy (omega * omega) alpha1 ≤ BGGD realMath xx yy (omega * omega) alpha2)
    ∧ (omega ^ 2 ≤ xx ^ 2 + yy ^ 2 →
        BGGD realMath xx yy (omega * omega) alpha2 ≤ BGGD realMath xx yy (omega * omega) alpha1)
    ∧ (xx ^ 2 + yy ^ 2 = omega ^ 2 →
        ∀ alpha : ℝ, BGGD realMath xx yy (omega * omega) alpha = Real.exp (-2)) := by
  have hw : 0 < omega * omega := mul_pos homega homega
  have hb := BGGD_base_nonneg xx yy omega
  refine ⟨?_, ?_, ?_⟩
  · intro hin
    have hle : (xx ^ 2 + yy ^ 2) / (omega * omega) ≤ 1 := by
      rw [div_le_one hw]
      nlinarith
    rw [BGGD_real, BGGD_real, Real.exp_le_exp]
    have := Real.rpow_le_rpow_of_exponent_ge' hb hle (by linarith : (0 : ℝ) ≤ alpha1) h12
    linarith
  · intro hout
    have hge : 1 ≤ (xx ^ 2 + yy ^ 2) / (omega * omega) := by
      rw [one_le_div hw]
      nlinarith
    rw [BGGD_real, BGGD_real, Real.exp_le_exp]
    have := Real.rpow_le_rpow_of_exponent_le hge h12
    linarith
  · intro hon alpha
    have heq : (xx ^ 2 + yy ^ 2) / (omega * omega) = 1 := by
      rw [div_eq_one_iff_eq hw.ne.symm]
      nlinarith
    rw [BGGD_real, heq, Real.one_rpow, mul_one]

/-- Witness of C16: `omega = 1`, `alpha1 = 1`, `alpha2 = 2` at the point `(1, 0)` of the
circle, where all three parts apply. -/
theorem BGGD_alpha_monotone_witness :
    ((0 : ℝ) < 1 ∧ (1 : ℝ) ≤ 1 ∧ (1 : ℝ) ≤ 2)
    ∧ BGGD realMath 1 0 (1 * 1) 1 ≤ BGGD realMath 1 0 (1 * 1) 2
    ∧ BGGD realMath 1 0 (1 * 1) 2 ≤ BGGD realMath 1 0 (1 * 1) 1
    ∧ BGGD realMath 1 0 (1 * 1) 2 = Real.exp (-2) :=
  ⟨by norm_num,
    (BGGD_alpha_monotone 1 1 2 1 0 (by norm_num) (by norm_num) (by norm_num)).1 (by norm_num),
    (BGGD_alpha_monotone 1 1 2 1 0 (by norm_num) (by norm_num) (by norm_num)).2.1
      (by norm_num),
    (BGGD_alpha_monotone 1 1 2 1 0 (by norm_num) (by norm_num) (by norm_num)).2.2
      (by norm_num) 2⟩

/-! ## Order and length of the rejection loop -/

/-- Exact arithmetic (the reading on `ℝ`; for doubles see the binary64 section below).
The loop emits the first accepted candidate of the stream: whenever
`UserSourceDefinition` returns, reading the stream as consecutive triples
`(xx_k, yy_k, uu_k)` there is a stopping iteration `K` with `uu_K ≤ BGGD(xx_K, yy_K)`,
`uu_k > BGGD(xx_k, yy_k)` for every `k < K`, and emitted position `(xx_K, yy_K)`; so among
the candidates `0, ..., K` consumed, the acceptance test holds for `K` alone. -/
theorem UserSourceDefinition_first_accepted (fuel : Nat) (gen : Gen ℝ) (data : Nat → ℝ)
    (rc : Int) (out : Nat → ℝ)
    (h : UserSourceDefinition realMath fuel gen data = some (rc, out)) :
    ∃ (K : Nat) (xxs yys uus : Nat → ℝ),
      (∀ k, (xxs k, yys k, uus k) = candidate
        ⟨-(resolveParameters (data 30) (data 31) (data 32) (data 33)).rejection_factor
            * (resolveParameters (data 30) (data 31) (data 32) (data 33)).omega,
          (resolveParameters (data 30) (data 31) (data 32) (data 33)).rejection_factor
            * (resolveParameters (data 30) (data 31) (data 32) (data 33)).omega⟩
        ⟨0.0, 1.0⟩ gen k)
      ∧ K < fuel
      ∧ uus K ≤ BGGD realMath (xxs K) (yys K)
          ((resolveParameters (data 30) (data 31) (data 32) (data 33)).omega
            * (resolveParameters (data 30) (data 31) (data 32) (data 33)).omega)
          (resolveParameters (data 30) (data 31) (data 32) (data 33)).alpha
      ∧ (∀ k, k < K → uus k > BGGD realMath (xxs k) (yys k)
          ((resolveParameters (data 30) (data 31) (data 32) (data 33)).omega
            * (resolveParameters (data 30) (data 31) (data 32) (data 33)).omega)
          (resolveParameters (data 30) (data 31) (data 32) (data 33)).alpha)
      ∧ out 1 = xxs K ∧ out 2 = yys K
      ∧ (∀ k, k ≤ K → (uus k ≤ BGGD realMath (xxs k) (yys k)
          ((resolveParameters (data 30) (data 31) (data 32) (data 33)).omega
            * (resolveParameters (data 30) (data 31) (data 32) (data 33)).omega)
          (resolveParameters (data 30) (data 31) (data 32) (data 33)).alpha ↔ k = K)) := by
  obtain ⟨xx, yy, uu, gen1, hloop, -, hout⟩ := UserSourceDefinition_some _ _ _ _ _ _ h
  obtain ⟨K, hK, hc, -, hacc, hrej⟩ := rejectionSampling_some _ _ _ _ _ _ _ _ _ _ _ hloop
  have hx : xx = (candidate _ _ gen K).1 := congrArg Prod.fst hc
  have hy : yy = (candidate _ _ gen K).2.1 := congrArg (fun c : ℝ × ℝ × ℝ => c.2.1) hc
  have hu : uu = (candidate _ _ gen K).2.2 := congrArg (fun c : ℝ × ℝ × ℝ => c.2.2) hc
  rw [hx, hy, hu] at hacc
  refine ⟨K, fun k => (candidate _ _ gen k).1, fun k => (candidate _ _ gen k).2.1,
    fun k => (candidate _ _ gen k).2.2, fun k => rfl, hK, hacc, hrej, ?_, ?_, ?_⟩
  · rw [hout, (returnRay_written _ _ _ _ _ _).1, hx]
  · rw [hout, (returnRay_written _ _ _ _ _ _).2.1, hy]
  · intro k hk
    constructor
    · intro hk_acc
      by_contra hne
      have := hrej k (lt_of_le_of_ne hk hne)
      exact absurd hk_acc (not_le.mpr this)
    · rintro rfl
      exact hacc

/-- An instance in exact arithmetic: the run with default parameters and all canonical draws
1/2 returns; it
stops at iteration 0. -/
theorem UserSourceDefinition_first_accepted_witness :
    ∃ (K : Nat) (xxs yys uus : Nat → ℝ),
      (∀ k, (xxs k, yys k, uus k) = candidate
        ⟨-(resolveParameters (0 : ℝ) 0 0 0).rejection_factor
            * (resolveParameters (0 : ℝ) 0 0 0).omega,
          (resolveParameters (0 : ℝ) 0 0 0).rejection_factor
            * (resolveParameters (0 : ℝ) 0 0 0).omega⟩
        ⟨0.0, 1.0⟩ ⟨fun _ => (1 / 2 : ℝ), 0⟩ k)
      ∧ K < 1
      ∧ uus K ≤ BGGD realMath (xxs K) (yys K)
          ((resolveParameters (0 : ℝ) 0 0 0).omega * (resolveParameters (0 : ℝ) 0 0 0).omega)
          (resolveParameters (0 : ℝ) 0 0 0).alpha
      ∧ (∀ k, k < K → uus k > BGGD realMath (xxs k) (yys k)
          ((resolveParameters (0 : ℝ) 0 0 0).omega * (resolveParameters (0 : ℝ) 0 0 0).omega)
          (resolveParameters (0 : ℝ) 0 0 0).alpha)
      ∧ returnRay (fun _ => (0 : ℝ)) 0 0 0 0 1 1 = xxs K
      ∧ returnRay (fun _ => (0 : ℝ)) 0 0 0 0 1 2 = yys K
      ∧ (∀ k, k ≤ K → (uus k ≤ BGGD realMath (xxs k) (yys k)
          ((resolveParameters (0 : ℝ) 0 0 0).omega * (resolveParameters (0 : ℝ) 0 0 0).omega)
          (resolveParameters (0 : ℝ) 0 0 0).alpha ↔ k = K)) :=
  UserSourceDefinition_first_accepted 1 ⟨fun _ => (1 / 2 : ℝ), 0⟩ (fun _ => 0) 0
    (returnRay (fun _ => 0) 0 0 0 0 1) UserSourceDefinition_centred_run

/-- When every candidate of the stream fails the acceptance test, the loop does not stop
within any number of iterations. -/
theorem rejectionSampling_none_of_all_rejected {K : Type} [LinearOrderedField K]
    (M : CMath K) (draw_xy draw_uu : UniformReal K) (omega2 alpha : K) (gen : Gen K)
    (hrej : ∀ k,
      BGGD M (candidate draw_xy draw_uu gen k).1 (candidate draw_xy draw_uu gen k).2.1
        omega2 alpha < (candidate draw_xy draw_uu gen k).2.2) (fuel : Nat) :
    rejectionSampling M draw_xy draw_uu omega2 alpha fuel gen = none := by
  cases hres : rejectionSampling M draw_xy draw_uu omega2 alpha fuel gen with
  | none => rfl
  | some r =>
    obtain ⟨xx, yy, uu, gen1⟩ := r
    obtain ⟨k, -, hc, -, hacc, -⟩ := rejectionSampling_some _ _ _ _ _ _ _ _ _ _ _ hres
    have hx : xx = (candidate draw_xy draw_uu gen k).1 := congrArg Prod.fst hc
    have hy : yy = (candidate draw_xy draw_uu gen k).2.1 :=
      congrArg (fun c : K × K × K => c.2.1) hc
    have hu : uu = (candidate draw_xy draw_uu gen k).2.2 :=
      congrArg (fun c : K × K × K => c.2.2) hc
    rw [hx, hy, hu] at hacc
    exact absurd hacc (not_le.mpr (hrej k))

/-- Raw values that meet the checked bounds are kept by the resolution. -/
theorem resolveParameters_of_valid {K : Type} [LinearOrderedField K]
    (omega alpha rejectionFactor fiberNA : K) (homega : 0 < omega) (halpha : 1 ≤ alpha)
    (hrf : 0 < rejectionFactor) :
    (resolveParameters omega alpha rejectionFactor fiberNA).omega = omega
    ∧ (resolveParameters omega alpha rejectionFactor fiberNA).alpha = alpha
    ∧ (resolveParameters omega alpha rejectionFactor fiberNA).rejection_factor
        = rejectionFactor := by
  have h0 : (0.0 : K) = 0 := by norm_num
  simp only [resolveParameters, h0]
  exact ⟨if_neg (not_le.mpr homega), if_neg (not_lt.mpr halpha), if_neg (not_le.mpr hrf)⟩

/-- Exact arithmetic (the reading on `ℝ`, where `std::exp` and `std::pow` are the real
functions; the values these calls return on doubles are not fixed by the source). The
rejection loop has no iteration bound: for every `omega > 0`, `alpha ≥ 1`,
`rejectionFactor > 0` there is a stream of canonical draws in `[0, 1)` whose candidates all
have `xx`, `yy` in the sampling box and `uu` in `[0, 1)` and are all rejected; on it the
loop is still running after `N` iterations for every `N`, and `UserSourceDefinition` on a
buffer holding these parameters does not return, whatever the number of iterations
allowed. -/
theorem rejectionSampling_unbounded (omega alpha rejectionFactor : ℝ) (homega : 0 < omega)
    (halpha : 1 ≤ alpha) (hrf : 0 < rejectionFactor) :
    ∃ s : Nat → ℝ,
      (∀ i, 0 ≤ s i ∧ s i < 1)
      ∧ (∀ k,
          |(candidate ⟨-rejectionFactor * omega, rejectionFactor * omega⟩ ⟨0.0, 1.0⟩
              ⟨s, 0⟩ k).1| ≤ rejectionFactor * omega
          ∧ |(candidate ⟨-rejectionFactor * omega, rejectionFactor * omega⟩ ⟨0.0, 1.0⟩
              ⟨s, 0⟩ k).2.1| ≤ rejectionFactor * omega
          ∧ 0 ≤ (candidate ⟨-rejectionFactor * omega, rejectionFactor * omega⟩ ⟨0.0, 1.0⟩
              ⟨s, 0⟩ k).2.2
          ∧ (candidate ⟨-rejectionFactor * omega, rejectionFactor * omega⟩ ⟨0.0, 1.0⟩
              ⟨s, 0⟩ k).2.2 < 1
          ∧ (candidate ⟨-rejectionFactor * omega, rejectionFactor * omega⟩ ⟨0.0, 1.0⟩
              ⟨s, 0⟩ k).2.2
            > BGGD realMath
                (candidate ⟨-rejectionFactor * omega, rejectionFactor * omega⟩ ⟨0.0, 1.0⟩
                  ⟨s, 0⟩ k).1
                (candidate ⟨-rejectionFactor * omega, rejectionFactor * omega⟩ ⟨0.0, 1.0⟩
                  ⟨s, 0⟩ k).2.1
                (omega * omega) alpha)
      ∧ (∀ N, rejectionSampling realMath
          ⟨-rejectionFactor * omega, rejectionFactor * omega⟩ ⟨0.0, 1.0⟩
          (omega * omega) alpha N ⟨s, 0⟩ = none)
      ∧ (∀ data : Nat → ℝ, data 30 = omega ∧ data 31 = alpha ∧ data 32 = rejectionFactor →
          ∀ N, UserSourceDefinition realMath N ⟨s, 0⟩ data = none) := by
  have hA : 0 < rejectionFactor * omega := mul_pos hrf homega
  obtain ⟨hBpos, hBle⟩ := BGGD_pos_le_one (-rejectionFactor * omega) (-rejectionFactor * omega)
    omega alpha
  have hBne : BGGD realMath (-rejectionFactor * omega) (-rejectionFactor * omega)
      (omega * omega) alpha ≠ 1 := by
    intro h1
    have := ((BGGD_eq_one_iff _ _ omega alpha homega halpha).mp h1).1
    linarith
  have hBlt := lt_of_le_of_ne hBle hBne
  have hcand : ∀ k, candidate ⟨-rejectionFactor * omega, rejectionFactor * omega⟩ ⟨0.0, 1.0⟩
      ⟨fun i => if i % 3 = 2
        then (1 + BGGD realMath (-rejectionFactor * omega) (-rejectionFactor * omega)
          (omega * omega) alpha) / 2
        else 0, 0⟩ k
      = (-rejectionFactor * omega, -rejectionFactor * omega,
        (1 + BGGD realMath (-rejectionFactor * omega) (-rejectionFactor * omega)
          (omega * omega) alpha) / 2) := by
    intro k
    have e0 : (0 + 3 * k) % 3 = 0 := by omega
    have e1 : (0 + 3 * k + 1) % 3 = 1 := by omega
    have e2 : (0 + 3 * k + 2) % 3 = 2 := by omega
    simp only [candidate, UniformReal.draw, Gen.next, e0, e1, e2]
    norm_num
  have hrej : ∀ k,
      BGGD realMath
        (candidate ⟨-rejectionFactor * omega, rejectionFactor * omega⟩ ⟨0.0, 1.0⟩
          ⟨fun i => if i % 3 = 2
            then (1 + BGGD realMath (-rejectionFactor * omega) (-rejectionFactor * omega)
              (omega * omega) alpha) / 2
            else 0, 0⟩ k).1
        (candidate ⟨-rejectionFactor * omega, rejectionFactor * omega⟩ ⟨0.0, 1.0⟩
          ⟨fun i => if i % 3 = 2
            then (1 + BGGD realMath (-rejectionFactor * omega) (-rejectionFactor * omega)
              (omega * omega) alpha) / 2
            else 0, 0⟩ k).2.1
        (omega * omega) alpha
      < (candidate ⟨-rejectionFactor * omega, rejectionFactor * omega⟩ ⟨0.0, 1.0⟩
          ⟨fun i => if i % 3 = 2
            then (1 + BGGD realMath (-rejectionFactor * omega) (-rejectionFactor * omega)
              (omega * omega) alpha) / 2
            else 0, 0⟩ k).2.2 := by
    intro k
    rw [hcand k]
    simp only
    linarith
  refine ⟨_, ?_, ?_, rejectionSampling_none_of_all_rejected _ _ _ _ _ _ hrej, ?_⟩
  · intro i
    split_ifs
    · constructor <;> linarith
    · norm_num
  · intro k
    refine ⟨?_, ?_, ?_, ?_, hrej k⟩
    · rw [hcand k]
      simp only
      rw [neg_mul, abs_neg, abs_of_pos hA]
    · rw [hcand k]
      simp only
      rw [neg_mul, abs_neg, abs_of_pos hA]
    · rw [hcand k]
      simp only
      linarith
    · rw [hcand k]
      simp only
      linarith
  · rintro data ⟨h30, h31, h32⟩ N
    obtain ⟨ro, ra, rr⟩ := resolveParameters_of_valid omega alpha rejectionFactor (data 33)
      homega halpha hrf
    simp only [UserSourceDefinition, h30, h31, h32, ro, ra, rr,
      rejectionSampling_none_of_all_rejected _ _ _ _ _ _ hrej N]

/-- An instance in exact arithmetic: `omega = 1`, `alpha = 1`, `rejectionFactor = 1`. -/
theorem rejectionSampling_unbounded_witness :
    ((0 : ℝ) < 1 ∧ (1 : ℝ) ≤ 1)
    ∧ ∃ s : Nat → ℝ, (∀ i, 0 ≤ s i ∧ s i < 1)
      ∧ ∀ N, rejectionSampling realMath ⟨-1 * 1, 1 * 1⟩ ⟨0.0, 1.0⟩ (1 * 1) 1 N ⟨s, 0⟩ = none :=
  ⟨by norm_num,
    (rejectionSampling_unbounded 1 1 1 (by norm_num) (by norm_num) (by norm_num)).elim
      (fun s hs => ⟨s, hs.1, hs.2.2.1⟩)⟩

/-! ## Acceptance probability of a candidate -/

/-- C17. For every `fiberNA` in (0, 1) and all angles `thetaX`, `thetaY` in
`[-arcsin fiberNA, arcsin fiberNA]`, the transverse cosines satisfy `|l| ≤ fiberNA` and
`|m| ≤ fiberNA`, the axial cosine satisfies `n ≥ sqrt((1 - fiberNA²) / (1 + fiberNA²))`, and
this last bound is attained when `|thetaX| = |thetaY| = arcsin fiberNA`. -/
theorem directionCosines_aperture_bounds (fiberNA thetaX thetaY : ℝ)
    (hNA : 0 < fiberNA ∧ fiberNA < 1)
    (hX : -Real.arcsin fiberNA ≤ thetaX ∧ thetaX ≤ Real.arcsin fiberNA)
    (hY : -Real.arcsin fiberNA ≤ thetaY ∧ thetaY ≤ Real.arcsin fiberNA) :
    |(directionCosines realMath thetaX thetaY).1| ≤ fiberNA
    ∧ |(directionCosines realMath thetaX thetaY).2.1| ≤ fiberNA
    ∧ Real.sqrt ((1 - fiberNA ^ 2) / (1 + fiberNA ^ 2))
        ≤ (directionCosines realMath thetaX thetaY).2.2
    ∧ (|thetaX| = Real.arcsin fiberNA ∧ |thetaY| = Real.arcsin fiberNA →
        (directionCosines realMath thetaX thetaY).2.2
          = Real.sqrt ((1 - fiberNA ^ 2) / (1 + fiberNA ^ 2))) := by
  obtain ⟨hn, hl, hm, hpos, -⟩ := directionCosines_real thetaX thetaY
  have hc : 0 < 1 - fiberNA ^ 2 := by nlinarith [hNA.1, hNA.2]
  have hd : 0 < 1 + fiberNA ^ 2 := by nlinarith [hNA.1]
  have hT : 0 < 1 + Real.tan thetaX ^ 2 + Real.tan thetaY ^ 2 := by positivity
  have htau : Real.tan (Real.arcsin fiberNA) ^ 2 * (1 - fiberNA ^ 2) = fiberNA ^ 2 := by
    rw [Real.tan_arcsin, div_pow, Real.sq_sqrt hc.le]
    exact div_mul_cancel₀ _ hc.ne.symm
  have hnn : 0 ≤ Real.tan (Real.arcsin fiberNA) :=
    (abs_nonneg _).trans (abs_tan_le_tan_half_cone fiberNA thetaX hNA hX)
  have hx : Real.tan thetaX ^ 2 ≤ Real.tan (Real.arcsin fiberNA) ^ 2 :=
    sq_le_sq.mpr (by
      rw [abs_of_nonneg hnn]
      exact abs_tan_le_tan_half_cone fiberNA thetaX hNA hX)
  have hy : Real.tan thetaY ^ 2 ≤ Real.tan (Real.arcsin fiberNA) ^ 2 :=
    sq_le_sq.mpr (by
      rw [abs_of_nonneg hnn]
      exact abs_tan_le_tan_half_cone fiberNA thetaY hNA hY)
  have hx1 : Real.tan thetaX ^ 2 * (1 - fiberNA ^ 2) ≤ fiberNA ^ 2 := by
    exact (mul_le_mul_of_nonneg_right hx hc.le).trans htau.le
  have hy1 : Real.tan thetaY ^ 2 * (1 - fiberNA ^ 2) ≤ fiberNA ^ 2 := by
    exact (mul_le_mul_of_nonneg_right hy hc.le).trans htau.le
  have hsq : (directionCosines realMath thetaX thetaY).2.2 ^ 2
      * (1 + Real.tan thetaX ^ 2 + Real.tan thetaY ^ 2) = 1 := by
    rw [hn, div_pow, Real.sq_sqrt hT.le, one_pow]
    exact one_div_mul_cancel hT.ne.symm
  have hn2 : 0 ≤ (directionCosines realMath thetaX thetaY).2.2 ^ 2 := sq_nonneg _
  refine ⟨?_, ?_, ?_, ?_⟩
  · apply abs_le_of_sq_le_sq _ hNA.1.le
    rw [hl, mul_pow]
    have h1 : Real.tan thetaX ^ 2
        ≤ fiberNA ^ 2 * (1 + Real.tan thetaX ^ 2 + Real.tan thetaY ^ 2) := by
      nlinarith [sq_nonneg (Real.tan thetaY), sq_nonneg fiberNA,
        mul_nonneg (sq_nonneg fiberNA) (sq_nonneg (Real.tan thetaY))]
    calc (directionCosines realMath thetaX thetaY).2.2 ^ 2 * Real.tan thetaX ^ 2
        ≤ (directionCosines realMath thetaX thetaY).2.2 ^ 2
            * (fiberNA ^ 2 * (1 + Real.tan thetaX ^ 2 + Real.tan thetaY ^ 2)) :=
          mul_le_mul_of_nonneg_left h1 hn2
      _ = fiberNA ^ 2 * ((directionCosines realMath thetaX thetaY).2.2 ^ 2
            * (1 + Real.tan thetaX ^ 2 + Real.tan thetaY ^ 2)) := by ring
      _ = fiberNA ^ 2 := by rw [hsq, mul_one]
  · apply abs_le_of_sq_le_sq _ hNA.1.le
    rw [hm, mul_pow]
    have h1 : Real.tan thetaY ^ 2
        ≤ fiberNA ^ 2 * (1 + Real.tan thetaX ^ 2 + Real.tan thetaY ^ 2) := by
      nlinarith [sq_nonneg (Real.tan thetaX), sq_nonneg fiberNA,
        mul_nonneg (sq_nonneg fiberNA) (sq_nonneg (Real.tan thetaX))]
    calc (directionCosines realMath thetaX thetaY).2.2 ^ 2 * Real.tan thetaY ^ 2
        ≤ (directionCosines realMath thetaX thetaY).2.2 ^ 2
            * (fiberNA ^ 2 * (1 + Real.tan thetaX ^ 2 + Real.tan thetaY ^ 2)) :=
          mul_le_mul_of_nonneg_left h1 hn2
      _ = fiberNA ^ 2 * ((directionCosines realMath thetaX thetaY).2.2 ^ 2
            * (1 + Real.tan thetaX ^ 2 + Real.tan thetaY ^ 2)) := by ring
      _ = fiberNA ^ 2 := by rw [hsq, mul_one]
  · rw [Real.sqrt_le_left hpos.le, div_le_iff₀ hd]
    have h1 : (1 - fiberNA ^ 2) * (1 + Real.tan thetaX ^ 2 + Real.tan thetaY ^ 2)
        ≤ 1 + fiberNA ^ 2 := by nlinarith
    calc 1 - fiberNA ^ 2
        = (directionCosines realMath thetaX thetaY).2.2 ^ 2
            * ((1 - fiberNA ^ 2) * (1 + Real.tan thetaX ^ 2 + Real.tan thetaY ^ 2)) := by
          rw [mul_left_comm, hsq, mul_one]
      _ ≤ (directionCosines realMath thetaX thetaY).2.2 ^ 2 * (1 + fiberNA ^ 2) :=
          mul_le_mul_of_nonneg_left h1 hn2
  · rintro ⟨hax, hay⟩
    have htx : Real.tan thetaX ^ 2 = Real.tan (Real.arcsin fiberNA) ^ 2 := by
      rw [← hax]
      rcases abs_choice thetaX with h | h
      · rw [h]
      · rw [h, Real.tan_neg, neg_sq]
    have hty : Real.tan thetaY ^ 2 = Real.tan (Real.arcsin fiberNA) ^ 2 := by
      rw [← hay]
      rcases abs_choice thetaY with h | h
      · rw [h]
      · rw [h, Real.tan_neg, neg_sq]
    have hsum : 1 + Real.tan thetaX ^ 2 + Real.tan thetaY ^ 2
        = ((1 - fiberNA ^ 2) / (1 + fiberNA ^ 2))⁻¹ := by
      rw [htx, hty, inv_div, eq_div_iff hc.ne.symm]
      nlinarith [htau]
    rw [hn, hsum, Real.sqrt_inv, one_div, inv_inv]

/-- Witness of C17: `fiberNA = 1/2` and both angles 0. -/
theorem directionCosines_aperture_bounds_witness :
    ((0 : ℝ) < 1 / 2 ∧ (1 / 2 : ℝ) < 1)
    ∧ (-Real.arcsin (1 / 2) ≤ (0 : ℝ) ∧ (0 : ℝ) ≤ Real.arcsin (1 / 2))
    ∧ |(directionCosines realMath 0 0).1| ≤ 1 / 2
    ∧ |(directionCosines realMath 0 0).2.1| ≤ 1 / 2
    ∧ Real.sqrt ((1 - (1 / 2 : ℝ) ^ 2) / (1 + (1 / 2 : ℝ) ^ 2))
        ≤ (directionCosines realMath 0 0).2.2 :=
  have h0 : -Real.arcsin (1 / 2) ≤ (0 : ℝ) ∧ (0 : ℝ) ≤ Real.arcsin (1 / 2) := by
    have h : 0 ≤ Real.arcsin (1 / 2) := Real.arcsin_nonneg.mpr (by norm_num)
    exact ⟨by linarith, h⟩
  ⟨by norm_num, h0,
    (directionCosines_aperture_bounds (1 / 2) 0 0 (by norm_num) h0 h0).1,
    (directionCosines_aperture_bounds (1 / 2) 0 0 (by norm_num) h0 h0).2.1,
    (directionCosines_aperture_bounds (1 / 2) 0 0 (by norm_num) h0 h0).2.2.1⟩

/-! ## Dependence on the inputs -/

/-- C18. The emitted ray depends only on the four user parameters and the random draws: for
two buffers that agree on `data[30]` to `data[33]` and one generator state, the two calls
either both fail to return within the fuel or both return, with the same code and the same
seven values in `data[1]` to `data[7]`, whatever else the buffers hold; in particular
changing the seed slot `data[22]` changes nothing. -/
theorem UserSourceDefinition_depends_on_parameters {K : Type} [LinearOrderedField K]
    (M : CMath K) (fuel : Nat) (gen : Gen K) (data1 data2 : Nat → K)
    (h : data1 30 = data2 30 ∧ data1 31 = data2 31 ∧ data1 32 = data2 32
      ∧ data1 33 = data2 33) :
    (UserSourceDefinition M fuel gen data1).map emittedRay
        = (UserSourceDefinition M fuel gen data2).map emittedRay
    ∧ ∀ seed : K,
        (UserSourceDefinition M fuel gen (store data1 22 seed)).map emittedRay
          = (UserSourceDefinition M fuel gen data1).map emittedRay := by
  have key : ∀ d1 d2 : Nat → K, d1 30 = d2 30 → d1 31 = d2 31 → d1 32 = d2 32 →
      d1 33 = d2 33 →
      (UserSourceDefinition M fuel gen d1).map emittedRay
        = (UserSourceDefinition M fuel gen d2).map emittedRay := by
    intro d1 d2 e30 e31 e32 e33
    simp only [UserSourceDefinition, e30, e31, e32, e33]
    cases rejectionSampling M
        ⟨-(resolveParameters (d2 30) (d2 31) (d2 32) (d2 33)).rejection_factor
            * (resolveParameters (d2 30) (d2 31) (d2 32) (d2 33)).omega,
          (resolveParameters (d2 30) (d2 31) (d2 32) (d2 33)).rejection_factor
            * (resolveParameters (d2 30) (d2 31) (d2 32) (d2 33)).omega⟩
        ⟨0.0, 1.0⟩
        ((resolveParameters (d2 30) (d2 31) (d2 32) (d2 33)).omega
          * (resolveParameters (d2 30) (d2 31) (d2 32) (d2 33)).omega)
        (resolveParameters (d2 30) (d2 31) (d2 32) (d2 33)).alpha fuel gen with
    | none => rfl
    | some r =>
      obtain ⟨xx, yy, uu, gen1⟩ := r
      simp only [Option.map_some', emittedRay, returnRay_written]
  refine ⟨key data1 data2 h.1 h.2.1 h.2.2.1 h.2.2.2, ?_⟩
  intro seed
  apply key <;> simp [store]

/-- Witness of C18: the all-zero buffer and the buffer that differs from it in the
wavelength, unit-scale and seed slots and in `data[1]`. -/
theorem UserSourceDefinition_depends_on_parameters_witness :
    (UserSourceDefinition realMath 1 ⟨fun _ => (1 / 2 : ℝ), 0⟩ (fun _ => 0)).map emittedRay
      = (UserSourceDefinition realMath 1 ⟨fun _ => (1 / 2 : ℝ), 0⟩
          (fun i => if i = 1 ∨ i = 20 ∨ i = 21 ∨ i = 22 then 7 else 0)).map emittedRay :=
  (UserSourceDefinition_depends_on_parameters realMath 1 ⟨fun _ => (1 / 2 : ℝ), 0⟩
    (fun _ => 0) (fun i => if i = 1 ∨ i = 20 ∨ i = 21 ∨ i = 22 then 7 else 0)
    ⟨by norm_num, by norm_num, by norm_num, by norm_num⟩).1

/-! ## Numeric preconditions of the sampling code -/

/-- Exact arithmetic (the reading on `ℝ`; for doubles see the binary64 section below).
After parameter resolution, for every raw `omega`, `alpha`, `rejectionFactor` (and
`fiberNA`) and every position `(xx, yy)`: the divisor `omega2 = omega * omega` passed to
`BGGD` is positive, the base `(xx * xx + yy * yy) / omega2` of the power is non-negative, and
the sampling interval is symmetric and non-degenerate, `min_val = -max_val` and
`min_val < 0 < max_val`, so `uniform_real_distribution(min_val, max_val)` has `a < b`. -/
theorem sampling_preconditions (omega alpha rejectionFactor fiberNA xx yy : ℝ) :
    0 < (resolveParameters omega alpha rejectionFactor fiberNA).omega
        * (resolveParameters omega alpha rejectionFactor fiberNA).omega
    ∧ 0 ≤ (xx * xx + yy * yy)
        / ((resolveParameters omega alpha rejectionFactor fiberNA).omega
          * (resolveParameters omega alpha rejectionFactor fiberNA).omega)
    ∧ -(resolveParameters omega alpha rejectionFactor fiberNA).rejection_factor
          * (resolveParameters omega alpha rejectionFactor fiberNA).omega
        = -((resolveParameters omega alpha rejectionFactor fiberNA).rejection_factor
          * (resolveParameters omega alpha rejectionFactor fiberNA).omega)
    ∧ -(resolveParameters omega alpha rejectionFactor fiberNA).rejection_factor
          * (resolveParameters omega alpha rejectionFactor fiberNA).omega < 0
    ∧ 0 < (resolveParameters omega alpha rejectionFactor fiberNA).rejection_factor
          * (resolveParameters omega alpha rejectionFactor fiberNA).omega
    ∧ (⟨-(resolveParameters omega alpha rejectionFactor fiberNA).rejection_factor
            * (resolveParameters omega alpha rejectionFactor fiberNA).omega,
          (resolveParameters omega alpha rejectionFactor fiberNA).rejection_factor
            * (resolveParameters omega alpha rejectionFactor fiberNA).omega⟩
          : UniformReal ℝ).a
        < (⟨-(resolveParameters omega alpha rejectionFactor fiberNA).rejection_factor
            * (resolveParameters omega alpha rejectionFactor fiberNA).omega,
          (resolveParameters omega alpha rejectionFactor fiberNA).rejection_factor
            * (resolveParameters omega alpha rejectionFactor fiberNA).omega⟩
          : UniformReal ℝ).b := by
  obtain ⟨ho, -, hr, -⟩ := resolveParameters_lower_bounds omega alpha rejectionFactor fiberNA
  have hw := mul_pos ho ho
  have hA := mul_pos hr ho
  refine ⟨hw, div_nonneg (by nlinarith [mul_self_nonneg xx, mul_self_nonneg yy]) hw.le,
    neg_mul _ _, ?_, hA, ?_⟩
  · rw [neg_mul]
    linarith
  · simp only
    rw [neg_mul]
    linarith

/-! ## A stream that is rejected for ever

The statements of this section hold for every number type, `F64` included, and every
reading of `<cmath>`. -/

section Periodic

/-- Every candidate of the stream that repeats the triple `a`, `b`, `u` is the candidate of
that triple. -/
theorem candidate_periodicStream {K : Type} [Add K] [Sub K] [Mul K]
    (draw_xy draw_uu : UniformReal K) (a b u : K) (k : Nat) :
    candidate draw_xy draw_uu ⟨periodicStream a b u, 0⟩ k
      = (a * (draw_xy.b - draw_xy.a) + draw_xy.a, b * (draw_xy.b - draw_xy.a) + draw_xy.a,
          u * (draw_uu.b - draw_uu.a) + draw_uu.a) := by
  have e0 : (0 + 3 * k) % 3 = 0 := by omega
  have e1 : (0 + 3 * k + 1) % 3 = 1 := by omega
  have e2 : (0 + 3 * k + 2) % 3 = 2 := by omega
  simp only [candidate, UniformReal.draw, Gen.next, periodicStream, e0, e1, e2, if_true,
    OfNat.ofNat_ne_zero, OfNat.ofNat_ne_one, one_ne_zero, if_false]

/-- When the candidate of the triple `a`, `b`, `u` is rejected, the loop on the stream
repeating the triple does not stop within any number of iterations. -/
theorem rejectionSampling_periodicStream {K : Type} [Add K] [Sub K] [Mul K] [Div K]
    [Neg K] [OfNat K 2] [LT K] [∀ a b : K, Decidable (a < b)]
    (M : CMath K) (draw_xy draw_uu : UniformReal K) (omega2 alpha : K) (a b u : K)
    (hrej : u * (draw_uu.b - draw_uu.a) + draw_uu.a
      > BGGD M (a * (draw_xy.b - draw_xy.a) + draw_xy.a)
          (b * (draw_xy.b - draw_xy.a) + draw_xy.a) omega2 alpha)
    (fuel j : Nat) :
    rejectionSampling M draw_xy draw_uu omega2 alpha fuel ⟨periodicStream a b u, 3 * j⟩
      = none := by
  induction fuel generalizing j with
  | zero => rfl
  | succ n ih =>
    have e0 : (3 * j) % 3 = 0 := by omega
    have e1 : (3 * j + 1) % 3 = 1 := by omega
    have e2 : (3 * j + 1 + 1) % 3 = 2 := by omega
    have e3 : 3 * j + 1 + 1 + 1 = 3 * (j + 1) := by omega
    have hrej1 : decide (u * (draw_uu.b - draw_uu.a) + draw_uu.a
        > BGGD M (a * (draw_xy.b - draw_xy.a) + draw_xy.a)
            (b * (draw_xy.b - draw_xy.a) + draw_xy.a) omega2 alpha) = true :=
      decide_eq_true hrej
    simp only [rejectionSampling, UniformReal.draw, Gen.next, periodicStream, e0, e1, e2,
      if_true, OfNat.ofNat_ne_zero, OfNat.ofNat_ne_one, one_ne_zero, if_false, hrej1, e3]
    exact ih (j + 1)

/-- C12, amended. The loop has no iteration bound on a stream that keeps being rejected:
for every buffer and every triple of canonical draws `a`, `b`, `u` whose candidate is
rejected under the resolved parameters (`uu > BGGD(xx, yy, omega², alpha)`), the stream that
repeats the triple has no other draws than `a`, `b`, `u`, yields that same rejected
candidate at every iteration, the loop is still running after `N` iterations for every `N`,
and `UserSourceDefinition` does not return, whatever the number of iterations allowed. -/
theorem UserSourceDefinition_never_returns_of_rejected_triple {K : Type} [Add K] [Sub K]
    [Mul K] [Div K] [Neg K] [OfScientific K] [OfNat K 1] [OfNat K 2] [LE K] [LT K]
    [∀ a b : K, Decidable (a ≤ b)] [∀ a b : K, Decidable (a < b)]
    (M : CMath K) (data : Nat → K) (a b u : K)
    (hrej : (candidate
          ⟨-(resolveParameters (data 30) (data 31) (data 32) (data 33)).rejection_factor
            * (resolveParameters (data 30) (data 31) (data 32) (data 33)).omega,
          (resolveParameters (data 30) (data 31) (data 32) (data 33)).rejection_factor
            * (resolveParameters (data 30) (data 31) (data 32) (data 33)).omega⟩
          ⟨0.0, 1.0⟩ ⟨periodicStream a b u, 0⟩ 0).2.2
      > BGGD M
          (candidate
          ⟨-(resolveParameters (data 30) (data 31) (data 32) (data 33)).rejection_factor
            * (resolveParameters (data 30) (data 31) (data 32) (data 33)).omega,
          (resolveParameters (data 30) (data 31) (data 32) (data 33)).rejection_factor
            * (resolveParameters (data 30) (data 31) (data 32) (data 33)).omega⟩
          ⟨0.0, 1.0⟩ ⟨periodicStream a b u, 0⟩ 0).1
          (candidate
          ⟨-(resolveParameters (data 30) (data 31) (data 32) (data 33)).rejection_factor
            * (resolveParameters (data 30) (data 31) (data 32) (data 33)).omega,
          (resolveParameters (data 30) (data 31) (data 32) (data 33)).rejection_factor
            * (resolveParameters (data 30) (data 31) (data 32) (data 33)).omega⟩
          ⟨0.0, 1.0⟩ ⟨periodicStream a b u, 0⟩ 0).2.1
          ((resolveParameters (data 30) (data 31) (data 32) (data 33)).omega
              * (resolveParameters (data 30) (data 31) (data 32) (data 33)).omega)
                  (resolveParameters (data 30) (data 31) (data 32) (data 33)).alpha) :
    (∀ i, periodicStream a b u i = a ∨ periodicStream a b u i = b
        ∨ periodicStream a b u i = u)
    ∧ (∀ k, candidate
          ⟨-(resolveParameters (data 30) (data 31) (data 32) (data 33)).rejection_factor
            * (resolveParameters (data 30) (data 31) (data 32) (data 33)).omega,
          (resolveParameters (data 30) (data 31) (data 32) (data 33)).rejection_factor
            * (resolveParameters (data 30) (data 31) (data 32) (data 33)).omega⟩
          ⟨0.0, 1.0⟩ ⟨periodicStream a b u, 0⟩ k
        = candidate
          ⟨-(resolveParameters (data 30) (data 31) (data 32) (data 33)).rejection_factor
            * (resolveParameters (data 30) (data 31) (data 32) (data 33)).omega,
          (resolveParameters (data 30) (data 31) (data 32) (data 33)).rejection_factor
            * (resolveParameters (data 30) (data 31) (data 32) (data 33)).omega⟩
          ⟨0.0, 1.0⟩ ⟨periodicStream a b u, 0⟩ 0)
    ∧ (∀ k, (candidate
          ⟨-(resolveParameters (data 30) (data 31) (data 32) (data 33)).rejection_factor
            * (resolveParameters (data 30) (data 31) (data 32) (data 33)).omega,
          (resolveParameters (data 30) (data 31) (data 32) (data 33)).rejection_factor
            * (resolveParameters (data 30) (data 31) (data 32) (data 33)).omega⟩
          ⟨0.0, 1.0⟩ ⟨periodicStream a b u, 0⟩ k).2.2
        > BGGD M
          (candidate
          ⟨-(resolveParameters (data 30) (data 31) (data 32) (data 33)).rejection_factor
            * (resolveParameters (data 30) (data 31) (data 32) (data 33)).omega,
          (resolveParameters (data 30) (data 31) (data 32) (data 33)).rejection_factor
            * (resolveParameters (data 30) (data 31) (data 32) (data 33)).omega⟩
          ⟨0.0, 1.0⟩ ⟨periodicStream a b u, 0⟩ k).1
          (candidate
          ⟨-(resolveParameters (data 30) (data 31) (data 32) (data 33)).rejection_factor
            * (resolveParameters (data 30) (data 31) (data 32) (data 33)).omega,
          (resolveParameters (data 30) (data 31) (data 32) (data 33)).rejection_factor
            * (resolveParameters (data 30) (data 31) (data 32) (data 33)).omega⟩
          ⟨0.0, 1.0⟩ ⟨periodicStream a b u, 0⟩ k).2.1
          ((resolveParameters (data 30) (data 31) (data 32) (data 33)).omega
              * (resolveParameters (data 30) (data 31) (data 32) (data 33)).omega)
                  (resolveParameters (data 30) (data 31) (data 32) (data 33)).alpha)
    ∧ (∀ N, rejectionSampling M
          ⟨-(resolveParameters (data 30) (data 31) (data 32) (data 33)).rejection_factor
            * (resolveParameters (data 30) (data 31) (data 32) (data 33)).omega,
          (resolveParameters (data 30) (data 31) (data 32) (data 33)).rejection_factor
            * (resolveParameters (data 30) (data 31) (data 32) (data 33)).omega⟩
          ⟨0.0, 1.0⟩ ((resolveParameters (data 30) (data 31) (data 32) (data 33)).omega
              * (resolveParameters (data 30) (data 31) (data 32) (data 33)).omega)
                  (resolveParameters (data 30) (data 31) (data 32) (data 33)).alpha
                      N ⟨periodicStream a b u, 0⟩ = none)
    ∧ (∀ N, UserSourceDefinition M N ⟨periodicStream a b u, 0⟩ data = none) := by
  have hall : ∀ k, candidate
          ⟨-(resolveParameters (data 30) (data 31) (data 32) (data 33)).rejection_factor
            * (resolveParameters (data 30) (data 31) (data 32) (data 33)).omega,
          (resolveParameters (data 30) (data 31) (data 32) (data 33)).rejection_factor
            * (resolveParameters (data 30) (data 31) (data 32) (data 33)).omega⟩
          ⟨0.0, 1.0⟩ ⟨periodicStream a b u, 0⟩ k
        = candidate
          ⟨-(resolveParameters (data 30) (data 31) (data 32) (data 33)).rejection_factor
            * (resolveParameters (data 30) (data 31) (data 32) (data 33)).omega,
          (resolveParameters (data 30) (data 31) (data 32) (data 33)).rejection_factor
            * (resolveParameters (data 30) (data 31) (data 32) (data 33)).omega⟩
          ⟨0.0, 1.0⟩ ⟨periodicStream a b u, 0⟩ 0 := by
    intro k
    rw [candidate_periodicStream, candidate_periodicStream]
  have hnone : ∀ N, rejectionSampling M
          ⟨-(resolveParameters (data 30) (data 31) (data 32) (data 33)).rejection_factor
            * (resolveParameters (data 30) (data 31) (data 32) (data 33)).omega,
          (resolveParameters (data 30) (data 31) (data 32) (data 33)).rejection_factor
            * (resolveParameters (data 30) (data 31) (data 32) (data 33)).omega⟩
          ⟨0.0, 1.0⟩ ((resolveParameters (data 30) (data 31) (data 32) (data 33)).omega
              * (resolveParameters (data 30) (data 31) (data 32) (data 33)).omega)
                  (resolveParameters (data 30) (data 31) (data 32) (data 33)).alpha
                      N ⟨periodicStream a b u, 0⟩
        = none := by
    intro N
    rw [candidate_periodicStream] at hrej
    exact rejectionSampling_periodicStream M _ _ _ _ a b u hrej N 0
  refine ⟨?_, hall, ?_, hnone, ?_⟩
  · intro i
    simp only [periodicStream]
    split_ifs
    · exact Or.inl rfl
    · exact Or.inr (Or.inl rfl)
    · exact Or.inr (Or.inr rfl)
  · intro k
    rw [hall k]
    exact hrej
  · intro N
    simp only [UserSourceDefinition, hnone N]

end Periodic

/-- Witness of the amended C12: on the reals, with default parameters, the triple of
canonical draws `0`, `0`, `1/2` gives the box corner `(-0.2, -0.2)` with `uu = 1/2`, which
is rejected because its density is `exp (-16)`. -/
theorem UserSourceDefinition_never_returns_of_rejected_triple_witness :
    ((candidate
        ⟨-(resolveParameters (0 : ℝ) 0 0 0).rejection_factor
            * (resolveParameters (0 : ℝ) 0 0 0).omega,
          (resolveParameters (0 : ℝ) 0 0 0).rejection_factor
              * (resolveParameters (0 : ℝ) 0 0 0).omega⟩
        ⟨0.0, 1.0⟩ ⟨periodicStream (0 : ℝ) 0 (1 / 2), 0⟩ 0).2.2
      > BGGD realMath
        (candidate
        ⟨-(resolveParameters (0 : ℝ) 0 0 0).rejection_factor
            * (resolveParameters (0 : ℝ) 0 0 0).omega,
          (resolveParameters (0 : ℝ) 0 0 0).rejection_factor
              * (resolveParameters (0 : ℝ) 0 0 0).omega⟩
        ⟨0.0, 1.0⟩ ⟨periodicStream (0 : ℝ) 0 (1 / 2), 0⟩ 0).1
        (candidate
        ⟨-(resolveParameters (0 : ℝ) 0 0 0).rejection_factor
            * (resolveParameters (0 : ℝ) 0 0 0).omega,
          (resolveParameters (0 : ℝ) 0 0 0).rejection_factor
              * (resolveParameters (0 : ℝ) 0 0 0).omega⟩
        ⟨0.0, 1.0⟩ ⟨periodicStream (0 : ℝ) 0 (1 / 2), 0⟩ 0).2.1
        ((resolveParameters (0 : ℝ) 0 0 0).omega
            * (resolveParameters (0 : ℝ) 0 0 0).omega) (resolveParameters (0 : ℝ) 0 0 0).alpha)
    ∧ ∀ N, UserSourceDefinition realMath N ⟨periodicStream (0 : ℝ) 0 (1 / 2), 0⟩
        (fun _ => 0) = none :=
  have hexp : Real.exp (-16) < 1 / 2 := by
    have h1 : Real.exp (-16) ≤ Real.exp (-1) := Real.exp_le_exp.mpr (by norm_num)
    have h2 : Real.exp (-1) < 1 / 2 := by
      rw [Real.exp_neg, inv_lt_comm₀ (Real.exp_pos 1) (by norm_num)]
      have := Real.exp_one_gt_d9
      norm_num at this ⊢
      linarith
    linarith
  have hrej : (candidate
        ⟨-(resolveParameters (0 : ℝ) 0 0 0).rejection_factor
            * (resolveParameters (0 : ℝ) 0 0 0).omega,
          (resolveParameters (0 : ℝ) 0 0 0).rejection_factor
              * (resolveParameters (0 : ℝ) 0 0 0).omega⟩
        ⟨0.0, 1.0⟩ ⟨periodicStream (0 : ℝ) 0 (1 / 2), 0⟩ 0).2.2
      > BGGD realMath
        (candidate
        ⟨-(resolveParameters (0 : ℝ) 0 0 0).rejection_factor
            * (resolveParameters (0 : ℝ) 0 0 0).omega,
          (resolveParameters (0 : ℝ) 0 0 0).rejection_factor
              * (resolveParameters (0 : ℝ) 0 0 0).omega⟩
        ⟨0.0, 1.0⟩ ⟨periodicStream (0 : ℝ) 0 (1 / 2), 0⟩ 0).1
        (candidate
        ⟨-(resolveParameters (0 : ℝ) 0 0 0).rejection_factor
            * (resolveParameters (0 : ℝ) 0 0 0).omega,
          (resolveParameters (0 : ℝ) 0 0 0).rejection_factor
              * (resolveParameters (0 : ℝ) 0 0 0).omega⟩
        ⟨0.0, 1.0⟩ ⟨periodicStream (0 : ℝ) 0 (1 / 2), 0⟩ 0).2.1
        ((resolveParameters (0 : ℝ) 0 0 0).omega
            * (resolveParameters (0 : ℝ) 0 0 0).omega) (resolveParameters (0 : ℝ) 0 0 0).alpha := by
    have hb : ((-(2 * (1 / 10)) * -(2 * (1 / 10)) + -(2 * (1 / 10)) * -(2 * (1 / 10)))
        / (1 / 10 * (1 / 10)) : ℝ) = 8 := by norm_num
    rw [candidate_periodicStream]
    simp only [resolveParameters, BGGD, realMath]
    norm_num [hb]
    linarith
  ⟨hrej,
    (UserSourceDefinition_never_returns_of_rejected_triple realMath (fun _ => (0 : ℝ))
      0 0 (1 / 2) hrej).2.2.2.2⟩

/-! ## Shape lemmas of the binary64 operations -/

section Binary64Shapes

/-- The operators on `F64` are the model's functions. -/
theorem F64.mul_def (x y : F64) : x * y = F64.mul x y := rfl

/-- See `F64.mul_def`. -/
theorem F64.add_def (x y : F64) : x + y = F64.add x y := rfl

/-- See `F64.mul_def`. -/
theorem F64.div_def (x y : F64) : x / y = F64.div x y := rfl

/-- See `F64.mul_def`. -/
theorem F64.lt_def (x y : F64) : x < y ↔ F64.lt x y = true := Iff.rfl

/-- See `F64.mul_def`. -/
theorem F64.le_def (x y : F64) : x ≤ y ↔ F64.le x y = true := Iff.rfl

/-- Rounding keeps the sign: the result is the infinity or a finite value of sign `neg`. -/
theorem F64.round_shape (neg : Bool) (m : Nat) (e : Int) (sticky : Bool) :
    F64.round neg m e sticky = F64.inf neg
        ∨ ∃ m1 e1, F64.round neg m e sticky = F64.fin neg m1 e1 := by
  have hfin : ∀ (m0 : Nat) (e0 : Int),
      F64.finish neg m0 e0 = F64.inf neg ∨ ∃ m1 e1, F64.finish neg m0 e0 = F64.fin neg m1 e1 := by
    intro m0 e0
    unfold F64.finish F64.canon
    split_ifs
    · exact Or.inr ⟨_, _, rfl⟩
    · exact Or.inl rfl
    · exact Or.inr ⟨_, _, rfl⟩
  simp only [F64.round]
  split_ifs
  · exact Or.inr ⟨_, _, rfl⟩
  · exact hfin _ _
  · exact hfin _ _
  · exact hfin _ _

/-- A square is NaN, `+inf` or finite with the sign bit clear. -/
theorem F64.mul_self_shape (x : F64) : F64.NonNegShape (x * x) := by
  rw [F64.mul_def]
  cases x with
  | nan => exact Or.inl rfl
  | inf s => exact Or.inr (Or.inl (by cases s <;> rfl))
  | fin s m e =>
    have hs : xor s s = false := by cases s <;> rfl
    simp only [F64.mul, hs]
    rcases F64.round_shape false (m * m) (e + e) false with h | ⟨m1, e1, h⟩
    · exact Or.inr (Or.inl h)
    · exact Or.inr (Or.inr ⟨m1, e1, h⟩)

/-- The sum of two values of non-negative shape has non-negative shape. -/
theorem F64.add_shape (x y : F64) (hx : F64.NonNegShape x) (hy : F64.NonNegShape y) :
    F64.NonNegShape (x + y) := by
  rw [F64.add_def]
  rcases hx with rfl | rfl | ⟨m, e, rfl⟩ <;> rcases hy with rfl | rfl | ⟨n, f, rfl⟩
  · exact Or.inl rfl
  · exact Or.inl rfl
  · exact Or.inl rfl
  · exact Or.inl rfl
  · exact Or.inr (Or.inl rfl)
  · exact Or.inr (Or.inl rfl)
  · exact Or.inl rfl
  · exact Or.inr (Or.inl rfl)
  · simp only [F64.add, F64.scaled, Bool.false_eq_true, if_false, Bool.and_self]
    split_ifs with h0
    · exact Or.inr (Or.inr ⟨0, 0, rfl⟩)
    · have hnn : ¬ ((((m * 2 ^ (e - min e f).toNat : Nat) : Int)
          + ((n * 2 ^ (f - min e f).toNat : Nat) : Int)) < 0) := by
        have h1 := Int.ofNat_nonneg (m * 2 ^ (e - min e f).toNat)
        have h2 := Int.ofNat_nonneg (n * 2 ^ (f - min e f).toNat)
        omega
      simp only [hnn, decide_False]
      rcases F64.round_shape false
        (((m * 2 ^ (e - min e f).toNat : Nat) : Int)
          + ((n * 2 ^ (f - min e f).toNat : Nat) : Int)).natAbs (min e f) false
        with h | ⟨m1, e1, h⟩
      · exact Or.inr (Or.inl h)
      · exact Or.inr (Or.inr ⟨m1, e1, h⟩)

/-- A value of non-negative shape divided by `+inf` is NaN or `+0`. -/
theorem F64.div_inf_shape (x : F64) (hx : F64.NonNegShape x) :
    x / F64.inf false = F64.nan ∨ x / F64.inf false = F64.fin false 0 0 := by
  rw [F64.div_def]
  rcases hx with rfl | rfl | ⟨m, e, rfl⟩
  · exact Or.inl rfl
  · exact Or.inl rfl
  · exact Or.inr rfl

/-- When `x < y` holds, `y < x` does not. -/
theorem F64.not_lt_of_lt (x y : F64) (h : F64.lt x y = true) : F64.lt y x = false := by
  cases x with
  | nan => simp [F64.lt] at h
  | inf s =>
    cases y with
    | nan => simp [F64.lt] at h
    | inf t =>
      cases s <;> cases t <;> simp_all [F64.lt]
    | fin t n f =>
      cases s <;> simp_all [F64.lt]
  | fin s m e =>
    cases y with
    | nan => simp [F64.lt] at h
    | inf t =>
      cases t <;> simp_all [F64.lt]
    | fin t n f =>
      simp only [F64.lt, decide_eq_true_eq] at h
      simp only [F64.lt, decide_eq_false_iff_not, not_lt, min_comm f e]
      exact h.le

/-- When `x <= y` holds, `y < x` does not. -/
theorem F64.not_lt_of_le (x y : F64) (h : F64.le x y = true) : F64.lt y x = false := by
  cases x with
  | nan => simp [F64.le] at h
  | inf s =>
    cases y with
    | nan => simp [F64.le] at h
    | inf t =>
      cases s <;> cases t <;> simp_all [F64.le, F64.lt]
    | fin t n f =>
      cases s <;> simp_all [F64.le, F64.lt]
  | fin s m e =>
    cases y with
    | nan => simp [F64.le] at h
    | inf t =>
      cases t <;> simp_all [F64.le, F64.lt]
    | fin t n f =>
      simp only [F64.le, decide_eq_true_eq] at h
      simp only [F64.lt, decide_eq_false_iff_not, not_lt, min_comm f e]
      exact h

end Binary64Shapes

/-! ## The binary64 reading at a tiny and at a huge `omega`

On doubles the guard `omega <= 0.0` lets through positive values whose square underflows
to 0 or overflows to infinity. The theorems of this section run the definitions on `F64`
at `omega = 2^-600` and, further down, at `omega = 2^600`. The facts used about `<cmath>`
are hypotheses of each theorem: `std::exp` and `std::pow` return NaN on a NaN first argument
(the exponent here is 1.0, not 0), `exp(-0) = 1` and `pow(+0, a) = +0`. -/

section Binary64

set_option exponentiation.threshold 4096
set_option maxRecDepth 100000

/-- One iteration suffices when the first candidate is not rejected: the loop returns
candidate 0. Holds for every number type, NaN included. -/
theorem rejectionSampling_one_of_not_rejected {K : Type} [Add K] [Sub K] [Mul K] [Div K]
    [Neg K] [OfNat K 2] [LT K] [∀ a b : K, Decidable (a < b)]
    (M : CMath K) (draw_xy draw_uu : UniformReal K) (omega2 alpha : K) (gen : Gen K)
    (h : ¬ ((candidate draw_xy draw_uu gen 0).2.2
      > BGGD M (candidate draw_xy draw_uu gen 0).1 (candidate draw_xy draw_uu gen 0).2.1
          omega2 alpha)) :
    rejectionSampling M draw_xy draw_uu omega2 alpha 1 gen
      = some ((candidate draw_xy draw_uu gen 0).1, (candidate draw_xy draw_uu gen 0).2.1,
          (candidate draw_xy draw_uu gen 0).2.2, ⟨gen.stream, gen.pos + 3⟩) := by
  simp only [candidate, UniformReal.draw, Gen.next, Nat.mul_zero, Nat.add_zero] at h
  simp only [rejectionSampling, candidate, UniformReal.draw, Gen.next, Nat.mul_zero,
    Nat.add_zero, h, decide_False, Bool.false_eq_true, if_false]

/-- At `omega = 2^-600` the resolution keeps `omega`, the other parameters take their
defaults, the sampling interval is `[-2^-599, 2^-599]` and `omega2 = omega * omega` is 0. -/
theorem tinyOmega_parameters :
    resolveParameters (tinyOmegaData 30) (tinyOmegaData 31) (tinyOmegaData 32)
        (tinyOmegaData 33)
      = ⟨F64.fin false 1 (-600), F64.fin false 1 0, F64.fin false 1 1,
          F64.fin false 3512807709348987 (-53)⟩
    ∧ (F64.fin false 1 (-600) * F64.fin false 1 (-600) : F64) = F64.fin false 0 0
    ∧ (-F64.fin false 1 1 * F64.fin false 1 (-600) : F64) = F64.fin true 1 (-599)
    ∧ (F64.fin false 1 1 * F64.fin false 1 (-600) : F64) = F64.fin false 1 (-599) := by
  refine ⟨rfl, rfl, rfl, rfl⟩

/-- At `omega = 2^-600` and the draws 0.625, 0.625, 0.5 the first candidate is
`xx = yy = 2^-601 = omega / 2`, `uu = 0.5`, and the argument of `std::pow` for this
candidate is `(0 + 0) / 0`, a NaN. -/
theorem tinyOmega_candidate :
    candidate ⟨F64.fin true 1 (-599), F64.fin false 1 (-599)⟩ ⟨0.0, 1.0⟩
        ⟨tinyOmegaStream, 0⟩ 0
      = (F64.fin false 1 (-601), F64.fin false 1 (-601), F64.fin false 1 (-1))
    ∧ ((F64.fin false 1 (-601) * F64.fin false 1 (-601)
          + F64.fin false 1 (-601) * F64.fin false 1 (-601)) / F64.fin false 0 0 : F64)
        = F64.nan := by
  refine ⟨rfl, rfl⟩

/-- At `omega = 2^-600` the density of the first candidate is NaN for every `<cmath>` that
propagates NaN. -/
theorem tinyOmega_density (M : CMath F64) (hexp : M.exp F64.nan = F64.nan)
    (hpow : M.pow F64.nan (F64.fin false 1 0) = F64.nan) :
    BGGD M (F64.fin false 1 (-601)) (F64.fin false 1 (-601)) (F64.fin false 0 0)
      (F64.fin false 1 0) = F64.nan := by
  have hneg : (-2 * F64.nan : F64) = F64.nan := rfl
  simp only [BGGD, tinyOmega_candidate.2, hpow, hneg, hexp]

/-- At `omega = 2^-600` the loop stops after its first iteration, with the candidate
`(2^-601, 2^-601, 0.5)`. -/
theorem tinyOmega_loop (M : CMath F64) (hexp : M.exp F64.nan = F64.nan)
    (hpow : M.pow F64.nan (F64.fin false 1 0) = F64.nan) :
    rejectionSampling M ⟨F64.fin true 1 (-599), F64.fin false 1 (-599)⟩ ⟨0.0, 1.0⟩
        (F64.fin false 0 0) (F64.fin false 1 0) 1 ⟨tinyOmegaStream, 0⟩
      = some (F64.fin false 1 (-601), F64.fin false 1 (-601), F64.fin false 1 (-1),
          ⟨tinyOmegaStream, 3⟩) := by
  have h := rejectionSampling_one_of_not_rejected M
    ⟨F64.fin true 1 (-599), F64.fin false 1 (-599)⟩ ⟨0.0, 1.0⟩ (F64.fin false 0 0)
    (F64.fin false 1 0) ⟨tinyOmegaStream, 0⟩
  rw [tinyOmega_candidate.1] at h
  simp only [tinyOmega_density M hexp hpow] at h
  exact h (by decide)

/-- At `omega = 2^-600` the call returns after one iteration with the position
`(2^-601, 2^-601)`. -/
theorem tinyOmega_run (M : CMath F64) (hexp : M.exp F64.nan = F64.nan)
    (hpow : M.pow F64.nan (F64.fin false 1 0) = F64.nan) :
    UserSourceDefinition M 1 ⟨tinyOmegaStream, 0⟩ tinyOmegaData
      = some (0, returnRay tinyOmegaData (F64.fin false 1 (-601)) (F64.fin false 1 (-601))
          (angularSampling M (F64.fin false 3512807709348987 (-53)) ⟨tinyOmegaStream, 3⟩).1
          (angularSampling M (F64.fin false 3512807709348987 (-53)) ⟨tinyOmegaStream, 3⟩).2.1
          (angularSampling M (F64.fin false 3512807709348987 (-53))
            ⟨tinyOmegaStream, 3⟩).2.2) := by
  obtain ⟨hp, hw, hmin, hmax⟩ := tinyOmega_parameters
  simp only [UserSourceDefinition, hp, hw, hmin, hmax, tinyOmega_loop M hexp hpow]

/-- In exact arithmetic the density at `xx = yy = 2^-601` for `omega = 2^-600`, `alpha = 1`
is `exp (-1)`, which is below `uu = 1/2`: the candidate emitted on doubles is one that the
acceptance test should reject. -/
theorem tinyOmega_exact_density :
    BGGD realMath ((1 / 2 : ℝ) ^ 601) ((1 / 2 : ℝ) ^ 601)
        ((1 / 2 : ℝ) ^ 600 * (1 / 2 : ℝ) ^ 600) 1 = Real.exp (-1)
    ∧ Real.exp (-1) < 1 / 2 := by
  constructor
  · rw [BGGD_real, Real.rpow_one]
    congr 1
    have h : (((1 / 2 : ℝ) ^ 601) ^ 2 + ((1 / 2 : ℝ) ^ 601) ^ 2)
        / ((1 / 2 : ℝ) ^ 600 * (1 / 2 : ℝ) ^ 600) = 1 / 2 := by
      have e1 : ((1 / 2 : ℝ) ^ 601) ^ 2 = (1 / 2 : ℝ) ^ 600 * (1 / 2 : ℝ) ^ 600 * (1 / 4) := by
        ring
      have hpos : (0 : ℝ) < (1 / 2 : ℝ) ^ 600 * (1 / 2 : ℝ) ^ 600 := by positivity
      rw [e1]
      field_simp
      ring
    rw [h]
    norm_num
  · rw [Real.exp_neg, inv_lt_comm₀ (Real.exp_pos 1) (by norm_num)]
    have := Real.exp_one_gt_d9
    norm_num at this ⊢
    linarith

/-- C5. On doubles the emitted candidate need not satisfy `uu <= BGGD`: with
`data[30] = 2^-600` (a valid `omega > 0`, the other parameters at their defaults) and the
canonical draws 0.625, 0.625, 0.5, for every `<cmath>` that propagates NaN the call returns
after one iteration and emits `(xx, yy) = (2^-601, 2^-601)`; the density computed for this
candidate is NaN because `omega * omega` underflows to 0, the loop's test `uu > density` is
false, so the candidate is accepted, while `uu <= density` is false as well; `uu = 0.5` is the auxiliary draw of that
same iteration. -/
theorem UserSourceDefinition_emits_under_nan_density (M : CMath F64)
    (hexp : M.exp F64.nan = F64.nan) (hpow : M.pow F64.nan (F64.fin false 1 0) = F64.nan) :
    ∃ out : Nat → F64,
      UserSourceDefinition M 1 ⟨tinyOmegaStream, 0⟩ tinyOmegaData = some (0, out)
      ∧ out 1 = F64.fin false 1 (-601) ∧ out 2 = F64.fin false 1 (-601)
      ∧ candidate
          ⟨-(resolveParameters (tinyOmegaData 30) (tinyOmegaData 31) (tinyOmegaData 32)
            (tinyOmegaData 33)).rejection_factor
            * (resolveParameters (tinyOmegaData 30) (tinyOmegaData 31) (tinyOmegaData 32)
            (tinyOmegaData 33)).omega,
          (resolveParameters (tinyOmegaData 30) (tinyOmegaData 31) (tinyOmegaData 32)
            (tinyOmegaData 33)).rejection_factor
            * (resolveParameters (tinyOmegaData 30) (tinyOmegaData 31) (tinyOmegaData 32)
            (tinyOmegaData 33)).omega⟩
          ⟨0.0, 1.0⟩ ⟨tinyOmegaStream, 0⟩ 0 = (out 1, out 2, F64.fin false 1 (-1))
      ∧ BGGD M (out 1) (out 2)
          ((resolveParameters (tinyOmegaData 30) (tinyOmegaData 31) (tinyOmegaData 32)
            (tinyOmegaData 33)).omega
                * (resolveParameters (tinyOmegaData 30) (tinyOmegaData 31) (tinyOmegaData 32)
            (tinyOmegaData 33)).omega)
                (resolveParameters (tinyOmegaData 30) (tinyOmegaData 31) (tinyOmegaData 32)
            (tinyOmegaData 33)).alpha = F64.nan
      ∧ decide ((F64.fin false 1 (-1) : F64) > BGGD M (out 1) (out 2)
          ((resolveParameters (tinyOmegaData 30) (tinyOmegaData 31) (tinyOmegaData 32)
            (tinyOmegaData 33)).omega
                * (resolveParameters (tinyOmegaData 30) (tinyOmegaData 31) (tinyOmegaData 32)
            (tinyOmegaData 33)).omega)
                (resolveParameters (tinyOmegaData 30) (tinyOmegaData 31) (tinyOmegaData 32)
            (tinyOmegaData 33)).alpha) = false
      ∧ ¬ ((F64.fin false 1 (-1) : F64) ≤ BGGD M (out 1) (out 2)
          ((resolveParameters (tinyOmegaData 30) (tinyOmegaData 31) (tinyOmegaData 32)
            (tinyOmegaData 33)).omega
                * (resolveParameters (tinyOmegaData 30) (tinyOmegaData 31) (tinyOmegaData 32)
            (tinyOmegaData 33)).omega)
                (resolveParameters (tinyOmegaData 30) (tinyOmegaData 31) (tinyOmegaData 32)
            (tinyOmegaData 33)).alpha) := by
  obtain ⟨hp, hw, hmin, hmax⟩ := tinyOmega_parameters
  have hd := tinyOmega_density M hexp hpow
  refine ⟨_, tinyOmega_run M hexp hpow, rfl, rfl, ?_, ?_, ?_, ?_⟩
  · simp only [hp, hmin, hmax]
    exact tinyOmega_candidate.1
  · simp only [hp, hw]
    exact hd
  · simp only [hp, hw]
    rw [show returnRay tinyOmegaData (F64.fin false 1 (-601)) (F64.fin false 1 (-601))
        (angularSampling M (F64.fin false 3512807709348987 (-53)) ⟨tinyOmegaStream, 3⟩).1
        (angularSampling M (F64.fin false 3512807709348987 (-53)) ⟨tinyOmegaStream, 3⟩).2.1
        (angularSampling M (F64.fin false 3512807709348987 (-53)) ⟨tinyOmegaStream, 3⟩).2.2 1
        = F64.fin false 1 (-601) from rfl,
      show returnRay tinyOmegaData (F64.fin false 1 (-601)) (F64.fin false 1 (-601))
        (angularSampling M (F64.fin false 3512807709348987 (-53)) ⟨tinyOmegaStream, 3⟩).1
        (angularSampling M (F64.fin false 3512807709348987 (-53)) ⟨tinyOmegaStream, 3⟩).2.1
        (angularSampling M (F64.fin false 3512807709348987 (-53)) ⟨tinyOmegaStream, 3⟩).2.2 2
        = F64.fin false 1 (-601) from rfl, hd]
    decide
  · simp only [hp, hw]
    rw [show returnRay tinyOmegaData (F64.fin false 1 (-601)) (F64.fin false 1 (-601))
        (angularSampling M (F64.fin false 3512807709348987 (-53)) ⟨tinyOmegaStream, 3⟩).1
        (angularSampling M (F64.fin false 3512807709348987 (-53)) ⟨tinyOmegaStream, 3⟩).2.1
        (angularSampling M (F64.fin false 3512807709348987 (-53)) ⟨tinyOmegaStream, 3⟩).2.2 1
        = F64.fin false 1 (-601) from rfl,
      show returnRay tinyOmegaData (F64.fin false 1 (-601)) (F64.fin false 1 (-601))
        (angularSampling M (F64.fin false 3512807709348987 (-53)) ⟨tinyOmegaStream, 3⟩).1
        (angularSampling M (F64.fin false 3512807709348987 (-53)) ⟨tinyOmegaStream, 3⟩).2.1
        (angularSampling M (F64.fin false 3512807709348987 (-53)) ⟨tinyOmegaStream, 3⟩).2.2 2
        = F64.fin false 1 (-601) from rfl, hd]
    decide

/-- Witness of C5: a `<cmath>` reading that meets the two NaN hypotheses (every function
returns its first argument). -/
theorem UserSourceDefinition_emits_under_nan_density_witness :
    ((⟨fun x => x, fun x _ => x, fun x => x, fun x => x, fun x => x⟩ : CMath F64).exp F64.nan
        = F64.nan)
    ∧ ∃ out : Nat → F64,
      UserSourceDefinition ⟨fun x => x, fun x _ => x, fun x => x, fun x => x, fun x => x⟩ 1
          ⟨tinyOmegaStream, 0⟩ tinyOmegaData = some (0, out)
      ∧ out 1 = F64.fin false 1 (-601) ∧ out 2 = F64.fin false 1 (-601) :=
  ⟨rfl,
    (UserSourceDefinition_emits_under_nan_density
      ⟨fun x => x, fun x _ => x, fun x => x, fun x => x, fun x => x⟩ rfl rfl).elim
      (fun out h => ⟨out, h.1, h.2.1, h.2.2.1⟩)⟩

/-- C11. On doubles the loop can stop at a candidate that does not satisfy
`uu_K <= BGGD(xx_K, yy_K)`: with `data[30] = 2^-600` (the other parameters at their
defaults) and the triples `(0.625, 0.625, 0.5)`, for every `<cmath>` that propagates NaN the
loop stops after iteration `K = 0` with candidate 0, whose density is NaN, so that
`uu_0 <= BGGD(xx_0, yy_0, omega^2, alpha)` is false. -/
theorem rejectionSampling_stops_under_nan_density (M : CMath F64)
    (hexp : M.exp F64.nan = F64.nan) (hpow : M.pow F64.nan (F64.fin false 1 0) = F64.nan) :
    rejectionSampling M
        ⟨-(resolveParameters (tinyOmegaData 30) (tinyOmegaData 31) (tinyOmegaData 32)
            (tinyOmegaData 33)).rejection_factor
            * (resolveParameters (tinyOmegaData 30) (tinyOmegaData 31) (tinyOmegaData 32)
            (tinyOmegaData 33)).omega,
          (resolveParameters (tinyOmegaData 30) (tinyOmegaData 31) (tinyOmegaData 32)
            (tinyOmegaData 33)).rejection_factor
            * (resolveParameters (tinyOmegaData 30) (tinyOmegaData 31) (tinyOmegaData 32)
            (tinyOmegaData 33)).omega⟩
        ⟨0.0, 1.0⟩ ((resolveParameters (tinyOmegaData 30) (tinyOmegaData 31) (tinyOmegaData 32)
            (tinyOmegaData 33)).omega
                * (resolveParameters (tinyOmegaData 30) (tinyOmegaData 31) (tinyOmegaData 32)
            (tinyOmegaData 33)).omega)
                (resolveParameters (tinyOmegaData 30) (tinyOmegaData 31) (tinyOmegaData 32)
            (tinyOmegaData 33)).alpha 1 ⟨tinyOmegaStream, 0⟩
      = some ((candidate
            ⟨-(resolveParameters (tinyOmegaData 30) (tinyOmegaData 31) (tinyOmegaData 32)
            (tinyOmegaData 33)).rejection_factor
            * (resolveParameters (tinyOmegaData 30) (tinyOmegaData 31) (tinyOmegaData 32)
            (tinyOmegaData 33)).omega,
          (resolveParameters (tinyOmegaData 30) (tinyOmegaData 31) (tinyOmegaData 32)
            (tinyOmegaData 33)).rejection_factor
            * (resolveParameters (tinyOmegaData 30) (tinyOmegaData 31) (tinyOmegaData 32)
            (tinyOmegaData 33)).omega⟩
            ⟨0.0, 1.0⟩ ⟨tinyOmegaStream, 0⟩ 0).1,
          (candidate
            ⟨-(resolveParameters (tinyOmegaData 30) (tinyOmegaData 31) (tinyOmegaData 32)
            (tinyOmegaData 33)).rejection_factor
            * (resolveParameters (tinyOmegaData 30) (tinyOmegaData 31) (tinyOmegaData 32)
            (tinyOmegaData 33)).omega,
          (resolveParameters (tinyOmegaData 30) (tinyOmegaData 31) (tinyOmegaData 32)
            (tinyOmegaData 33)).rejection_factor
            * (resolveParameters (tinyOmegaData 30) (tinyOmegaData 31) (tinyOmegaData 32)
            (tinyOmegaData 33)).omega⟩
            ⟨0.0, 1.0⟩ ⟨tinyOmegaStream, 0⟩ 0).2.1,
          (candidate
            ⟨-(resolveParameters (tinyOmegaData 30) (tinyOmegaData 31) (tinyOmegaData 32)
            (tinyOmegaData 33)).rejection_factor
            * (resolveParameters (tinyOmegaData 30) (tinyOmegaData 31) (tinyOmegaData 32)
            (tinyOmegaData 33)).omega,
          (resolveParameters (tinyOmegaData 30) (tinyOmegaData 31) (tinyOmegaData 32)
            (tinyOmegaData 33)).rejection_factor
            * (resolveParameters (tinyOmegaData 30) (tinyOmegaData 31) (tinyOmegaData 32)
            (tinyOmegaData 33)).omega⟩
            ⟨0.0, 1.0⟩ ⟨tinyOmegaStream, 0⟩ 0).2.2,
          ⟨tinyOmegaStream, 3⟩)
    ∧ ¬ ((candidate
            ⟨-(resolveParameters (tinyOmegaData 30) (tinyOmegaData 31) (tinyOmegaData 32)
            (tinyOmegaData 33)).rejection_factor
            * (resolveParameters (tinyOmegaData 30) (tinyOmegaData 31) (tinyOmegaData 32)
            (tinyOmegaData 33)).omega,
          (resolveParameters (tinyOmegaData 30) (tinyOmegaData 31) (tinyOmegaData 32)
            (tinyOmegaData 33)).rejection_factor
            * (resolveParameters (tinyOmegaData 30) (tinyOmegaData 31) (tinyOmegaData 32)
            (tinyOmegaData 33)).omega⟩
            ⟨0.0, 1.0⟩ ⟨tinyOmegaStream, 0⟩ 0).2.2
        ≤ BGGD M
          (candidate
            ⟨-(resolveParameters (tinyOmegaData 30) (tinyOmegaData 31) (tinyOmegaData 32)
            (tinyOmegaData 33)).rejection_factor
            * (resolveParameters (tinyOmegaData 30) (tinyOmegaData 31) (tinyOmegaData 32)
            (tinyOmegaData 33)).omega,
          (resolveParameters (tinyOmegaData 30) (tinyOmegaData 31) (tinyOmegaData 32)
            (tinyOmegaData 33)).rejection_factor
            * (resolveParameters (tinyOmegaData 30) (tinyOmegaData 31) (tinyOmegaData 32)
            (tinyOmegaData 33)).omega⟩
            ⟨0.0, 1.0⟩ ⟨tinyOmegaStream, 0⟩ 0).1
          (candidate
            ⟨-(resolveParameters (tinyOmegaData 30) (tinyOmegaData 31) (tinyOmegaData 32)
            (tinyOmegaData 33)).rejection_factor
            * (resolveParameters (tinyOmegaData 30) (tinyOmegaData 31) (tinyOmegaData 32)
            (tinyOmegaData 33)).omega,
          (resolveParameters (tinyOmegaData 30) (tinyOmegaData 31) (tinyOmegaData 32)
            (tinyOmegaData 33)).rejection_factor
            * (resolveParameters (tinyOmegaData 30) (tinyOmegaData 31) (tinyOmegaData 32)
            (tinyOmegaData 33)).omega⟩
            ⟨0.0, 1.0⟩ ⟨tinyOmegaStream, 0⟩ 0).2.1
          ((resolveParameters (tinyOmegaData 30) (tinyOmegaData 31) (tinyOmegaData 32)
            (tinyOmegaData 33)).omega
                * (resolveParameters (tinyOmegaData 30) (tinyOmegaData 31) (tinyOmegaData 32)
            (tinyOmegaData 33)).omega)
                (resolveParameters (tinyOmegaData 30) (tinyOmegaData 31) (tinyOmegaData 32)
            (tinyOmegaData 33)).alpha) := by
  obtain ⟨hp, hw, hmin, hmax⟩ := tinyOmega_parameters
  simp only [hp, hw, hmin, hmax, tinyOmega_candidate.1, tinyOmega_loop M hexp hpow,
    tinyOmega_density M hexp hpow, true_and]
  decide

/-- Witness of C11: a `<cmath>` reading that meets the two NaN hypotheses (every function
returns its first argument). -/
theorem rejectionSampling_stops_under_nan_density_witness :
    ((⟨fun x => x, fun x _ => x, fun x => x, fun x => x, fun x => x⟩ : CMath F64).pow F64.nan
        (F64.fin false 1 0) = F64.nan)
    ∧ rejectionSampling ⟨fun x => x, fun x _ => x, fun x => x, fun x => x, fun x => x⟩
        ⟨-(resolveParameters (tinyOmegaData 30) (tinyOmegaData 31) (tinyOmegaData 32)
            (tinyOmegaData 33)).rejection_factor
            * (resolveParameters (tinyOmegaData 30) (tinyOmegaData 31) (tinyOmegaData 32)
            (tinyOmegaData 33)).omega,
          (resolveParameters (tinyOmegaData 30) (tinyOmegaData 31) (tinyOmegaData 32)
            (tinyOmegaData 33)).rejection_factor
            * (resolveParameters (tinyOmegaData 30) (tinyOmegaData 31) (tinyOmegaData 32)
            (tinyOmegaData 33)).omega⟩
        ⟨0.0, 1.0⟩ ((resolveParameters (tinyOmegaData 30) (tinyOmegaData 31) (tinyOmegaData 32)
            (tinyOmegaData 33)).omega
                * (resolveParameters (tinyOmegaData 30) (tinyOmegaData 31) (tinyOmegaData 32)
            (tinyOmegaData 33)).omega)
                (resolveParameters (tinyOmegaData 30) (tinyOmegaData 31) (tinyOmegaData 32)
            (tinyOmegaData 33)).alpha 1 ⟨tinyOmegaStream, 0⟩
      = some ((candidate
            ⟨-(resolveParameters (tinyOmegaData 30) (tinyOmegaData 31) (tinyOmegaData 32)
            (tinyOmegaData 33)).rejection_factor
            * (resolveParameters (tinyOmegaData 30) (tinyOmegaData 31) (tinyOmegaData 32)
            (tinyOmegaData 33)).omega,
          (resolveParameters (tinyOmegaData 30) (tinyOmegaData 31) (tinyOmegaData 32)
            (tinyOmegaData 33)).rejection_factor
            * (resolveParameters (tinyOmegaData 30) (tinyOmegaData 31) (tinyOmegaData 32)
            (tinyOmegaData 33)).omega⟩
            ⟨0.0, 1.0⟩ ⟨tinyOmegaStream, 0⟩ 0).1,
          (candidate
            ⟨-(resolveParameters (tinyOmegaData 30) (tinyOmegaData 31) (tinyOmegaData 32)
            (tinyOmegaData 33)).rejection_factor
            * (resolveParameters (tinyOmegaData 30) (tinyOmegaData 31) (tinyOmegaData 32)
            (tinyOmegaData 33)).omega,
          (resolveParameters (tinyOmegaData 30) (tinyOmegaData 31) (tinyOmegaData 32)
            (tinyOmegaData 33)).rejection_factor
            * (resolveParameters (tinyOmegaData 30) (tinyOmegaData 31) (tinyOmegaData 32)
            (tinyOmegaData 33)).omega⟩
            ⟨0.0, 1.0⟩ ⟨tinyOmegaStream, 0⟩ 0).2.1,
          (candidate
            ⟨-(resolveParameters (tinyOmegaData 30) (tinyOmegaData 31) (tinyOmegaData 32)
            (tinyOmegaData 33)).rejection_factor
            * (resolveParameters (tinyOmegaData 30) (tinyOmegaData 31) (tinyOmegaData 32)
            (tinyOmegaData 33)).omega,
          (resolveParameters (tinyOmegaData 30) (tinyOmegaData 31) (tinyOmegaData 32)
            (tinyOmegaData 33)).rejection_factor
            * (resolveParameters (tinyOmegaData 30) (tinyOmegaData 31) (tinyOmegaData 32)
            (tinyOmegaData 33)).omega⟩
            ⟨0.0, 1.0⟩ ⟨tinyOmegaStream, 0⟩ 0).2.2,
          ⟨tinyOmegaStream, 3⟩) :=
  ⟨rfl,
    (rejectionSampling_stops_under_nan_density
      ⟨fun x => x, fun x _ => x, fun x => x, fun x => x, fun x => x⟩ rfl rfl).1⟩

/-- C19. On doubles the numeric preconditions fail for valid raw inputs. With raw
`omega = 2^-600` and the other raw values 0: `omega` passes the guard and is kept, the
divisor `omega2 = omega * omega` is 0, not positive, and the base
`(xx * xx + yy * yy) / omega2` at `xx = yy = 2^-601` is NaN, not non-negative. With raw
`omega = 2^-600` and raw `rejectionFactor = 2^-600`: both are kept, `max_val` is 0 and
`min_val` is -0, so `min_val < 0`, `0 < max_val` and `min_val < max_val` are all false. -/
theorem sampling_preconditions_fail_on_doubles :
    (resolveParameters (F64.fin false 1 (-600)) (0.0 : F64) 0.0 0.0).omega
        = F64.fin false 1 (-600)
    ∧ (resolveParameters (F64.fin false 1 (-600)) (0.0 : F64) 0.0 0.0).omega
        * (resolveParameters (F64.fin false 1 (-600)) (0.0 : F64) 0.0 0.0).omega
        = F64.fin false 0 0
    ∧ ¬ ((0.0 : F64) < (resolveParameters (F64.fin false 1 (-600)) (0.0 : F64) 0.0 0.0).omega
        * (resolveParameters (F64.fin false 1 (-600)) (0.0 : F64) 0.0 0.0).omega)
    ∧ (F64.fin false 1 (-601) * F64.fin false 1 (-601)
          + F64.fin false 1 (-601) * F64.fin false 1 (-601))
        / ((resolveParameters (F64.fin false 1 (-600)) (0.0 : F64) 0.0 0.0).omega
          * (resolveParameters (F64.fin false 1 (-600)) (0.0 : F64) 0.0 0.0).omega)
        = F64.nan
    ∧ ¬ ((0.0 : F64) ≤ (F64.fin false 1 (-601) * F64.fin false 1 (-601)
          + F64.fin false 1 (-601) * F64.fin false 1 (-601))
        / ((resolveParameters (F64.fin false 1 (-600)) (0.0 : F64) 0.0 0.0).omega
          * (resolveParameters (F64.fin false 1 (-600)) (0.0 : F64) 0.0 0.0).omega))
    ∧ (resolveParameters (F64.fin false 1 (-600)) (0.0 : F64) (F64.fin false 1 (-600))
          0.0).rejection_factor = F64.fin false 1 (-600)
    ∧ (resolveParameters (F64.fin false 1 (-600)) (0.0 : F64) (F64.fin false 1 (-600))
          0.0).rejection_factor
        * (resolveParameters (F64.fin false 1 (-600)) (0.0 : F64) (F64.fin false 1 (-600))
          0.0).omega = F64.fin false 0 0
    ∧ -(resolveParameters (F64.fin false 1 (-600)) (0.0 : F64) (F64.fin false 1 (-600))
          0.0).rejection_factor
        * (resolveParameters (F64.fin false 1 (-600)) (0.0 : F64) (F64.fin false 1 (-600))
          0.0).omega = F64.fin true 0 0
    ∧ ¬ (-(resolveParameters (F64.fin false 1 (-600)) (0.0 : F64) (F64.fin false 1 (-600))
          0.0).rejection_factor
        * (resolveParameters (F64.fin false 1 (-600)) (0.0 : F64) (F64.fin false 1 (-600))
          0.0).omega < (0.0 : F64))
    ∧ ¬ ((0.0 : F64) < (resolveParameters (F64.fin false 1 (-600)) (0.0 : F64)
          (F64.fin false 1 (-600)) 0.0).rejection_factor
        * (resolveParameters (F64.fin false 1 (-600)) (0.0 : F64) (F64.fin false 1 (-600))
          0.0).omega)
    ∧ ¬ (-(resolveParameters (F64.fin false 1 (-600)) (0.0 : F64) (F64.fin false 1 (-600))
          0.0).rejection_factor
        * (resolveParameters (F64.fin false 1 (-600)) (0.0 : F64) (F64.fin false 1 (-600))
          0.0).omega
        < (resolveParameters (F64.fin false 1 (-600)) (0.0 : F64) (F64.fin false 1 (-600))
          0.0).rejection_factor
        * (resolveParameters (F64.fin false 1 (-600)) (0.0 : F64) (F64.fin false 1 (-600))
          0.0).omega) := by
  refine ⟨rfl, rfl, ?_, rfl, ?_, rfl, rfl, rfl, ?_, ?_, ?_⟩ <;> decide

/-! ### A huge `omega`: no candidate is rejected -/

/-- At `omega = 2^600` the resolution keeps `omega`, the other parameters take their
defaults, `omega2 = omega * omega` overflows to `+inf` and the sampling interval is
`[-2^601, 2^601]`. -/
theorem hugeOmega_parameters :
    resolveParameters (hugeOmegaData 30) (hugeOmegaData 31) (hugeOmegaData 32)
        (hugeOmegaData 33)
      = ⟨F64.fin false 1 600, F64.fin false 1 0, F64.fin false 1 1,
          F64.fin false 3512807709348987 (-53)⟩
    ∧ (F64.fin false 1 600 * F64.fin false 1 600 : F64) = F64.inf false
    ∧ (-F64.fin false 1 1 * F64.fin false 1 600 : F64) = F64.fin true 1 601
    ∧ (F64.fin false 1 1 * F64.fin false 1 600 : F64) = F64.fin false 1 601 := by
  refine ⟨rfl, rfl, rfl, rfl⟩

/-- With `omega2 = +inf` the density of every candidate is NaN or exactly 1, for every
`<cmath>` with the special values of C Annex F. -/
theorem hugeOmega_density (M : CMath F64) (hexp_nan : M.exp F64.nan = F64.nan)
    (hexp_zero : M.exp (F64.fin true 0 0) = F64.fin false 1 0)
    (hpow_nan : M.pow F64.nan (F64.fin false 1 0) = F64.nan)
    (hpow_zero : M.pow (F64.fin false 0 0) (F64.fin false 1 0) = F64.fin false 0 0)
    (xx yy : F64) :
    BGGD M xx yy (F64.inf false) (F64.fin false 1 0) = F64.nan
    ∨ BGGD M xx yy (F64.inf false) (F64.fin false 1 0) = F64.fin false 1 0 := by
  have hneg_nan : (-2 * F64.nan : F64) = F64.nan := rfl
  have hneg_zero : (-2 * F64.fin false 0 0 : F64) = F64.fin true 0 0 := rfl
  rcases F64.div_inf_shape _
    (F64.add_shape _ _ (F64.mul_self_shape xx) (F64.mul_self_shape yy)) with h | h
  · left
    simp only [BGGD, h, hpow_nan, hneg_nan, hexp_nan]
  · right
    simp only [BGGD, h, hpow_zero, hneg_zero, hexp_zero]

/-- With `omega2 = +inf` a candidate whose `uu` is below 1 is not rejected. -/
theorem hugeOmega_not_rejected (M : CMath F64) (hexp_nan : M.exp F64.nan = F64.nan)
    (hexp_zero : M.exp (F64.fin true 0 0) = F64.fin false 1 0)
    (hpow_nan : M.pow F64.nan (F64.fin false 1 0) = F64.nan)
    (hpow_zero : M.pow (F64.fin false 0 0) (F64.fin false 1 0) = F64.fin false 0 0)
    (xx yy uu : F64) (huu : uu < F64.fin false 1 0) :
    ¬ (uu > BGGD M xx yy (F64.inf false) (F64.fin false 1 0)) := by
  rcases hugeOmega_density M hexp_nan hexp_zero hpow_nan hpow_zero xx yy with h | h
  · rw [h]
    intro hgt
    exact absurd ((F64.lt_def _ _).mp hgt) (by simp [F64.lt])
  · rw [h]
    intro hgt
    have h1 := F64.not_lt_of_lt _ _ ((F64.lt_def _ _).mp huu)
    rw [(F64.lt_def _ _).mp hgt] at h1
    exact absurd h1 (by decide)

/-- C12, counterexample. On doubles a valid parameter set can have no rejecting stream:
with `data[30] = 2^600` (a finite `omega > 0`; `alpha = 1`, `rejectionFactor = 2` by
default) `omega * omega` is `+inf`, every density is NaN or exactly 1, and for every
`<cmath>` with the special values of C Annex F and every stream whose first `uu` is below 1
the loop returns at its first iteration; so no stream with all `uu` in `[0, 1)` has every
candidate rejected. -/
theorem rejectionSampling_no_rejecting_stream_on_doubles :
    (resolveParameters (hugeOmegaData 30) (hugeOmegaData 31) (hugeOmegaData 32)
        (hugeOmegaData 33)
      = ⟨F64.fin false 1 600, F64.fin false 1 0, F64.fin false 1 1,
          F64.fin false 3512807709348987 (-53)⟩)
    ∧ ∀ M : CMath F64, M.exp F64.nan = F64.nan →
        M.exp (F64.fin true 0 0) = F64.fin false 1 0 →
        M.pow F64.nan (F64.fin false 1 0) = F64.nan →
        M.pow (F64.fin false 0 0) (F64.fin false 1 0) = F64.fin false 0 0 →
        (∀ s : Nat → F64,
          (candidate
            ⟨-(resolveParameters (hugeOmegaData 30) (hugeOmegaData 31) (hugeOmegaData 32)
              (hugeOmegaData 33)).rejection_factor
              * (resolveParameters (hugeOmegaData 30) (hugeOmegaData 31) (hugeOmegaData 32)
              (hugeOmegaData 33)).omega,
            (resolveParameters (hugeOmegaData 30) (hugeOmegaData 31) (hugeOmegaData 32)
              (hugeOmegaData 33)).rejection_factor
              * (resolveParameters (hugeOmegaData 30) (hugeOmegaData 31) (hugeOmegaData 32)
              (hugeOmegaData 33)).omega⟩
            ⟨0.0, 1.0⟩ ⟨s, 0⟩ 0).2.2 < 1.0 →
          (rejectionSampling M
            ⟨-(resolveParameters (hugeOmegaData 30) (hugeOmegaData 31) (hugeOmegaData 32)
              (hugeOmegaData 33)).rejection_factor
              * (resolveParameters (hugeOmegaData 30) (hugeOmegaData 31) (hugeOmegaData 32)
              (hugeOmegaData 33)).omega,
            (resolveParameters (hugeOmegaData 30) (hugeOmegaData 31) (hugeOmegaData 32)
              (hugeOmegaData 33)).rejection_factor
              * (resolveParameters (hugeOmegaData 30) (hugeOmegaData 31) (hugeOmegaData 32)
              (hugeOmegaData 33)).omega⟩
            ⟨0.0, 1.0⟩
            ((resolveParameters (hugeOmegaData 30) (hugeOmegaData 31) (hugeOmegaData 32)
              (hugeOmegaData 33)).omega
              * (resolveParameters (hugeOmegaData 30) (hugeOmegaData 31) (hugeOmegaData 32)
              (hugeOmegaData 33)).omega)
            (resolveParameters (hugeOmegaData 30) (hugeOmegaData 31) (hugeOmegaData 32)
              (hugeOmegaData 33)).alpha 1 ⟨s, 0⟩).isSome = true)
        ∧ ¬ ∃ s : Nat → F64,
          (∀ k, (candidate
            ⟨-(resolveParameters (hugeOmegaData 30) (hugeOmegaData 31) (hugeOmegaData 32)
              (hugeOmegaData 33)).rejection_factor
              * (resolveParameters (hugeOmegaData 30) (hugeOmegaData 31) (hugeOmegaData 32)
              (hugeOmegaData 33)).omega,
            (resolveParameters (hugeOmegaData 30) (hugeOmegaData 31) (hugeOmegaData 32)
              (hugeOmegaData 33)).rejection_factor
              * (resolveParameters (hugeOmegaData 30) (hugeOmegaData 31) (hugeOmegaData 32)
              (hugeOmegaData 33)).omega⟩
            ⟨0.0, 1.0⟩ ⟨s, 0⟩ k).2.2 < 1.0)
          ∧ ∀ k, (candidate
            ⟨-(resolveParameters (hugeOmegaData 30) (hugeOmegaData 31) (hugeOmegaData 32)
              (hugeOmegaData 33)).rejection_factor
              * (resolveParameters (hugeOmegaData 30) (hugeOmegaData 31) (hugeOmegaData 32)
              (hugeOmegaData 33)).omega,
            (resolveParameters (hugeOmegaData 30) (hugeOmegaData 31) (hugeOmegaData 32)
              (hugeOmegaData 33)).rejection_factor
              * (resolveParameters (hugeOmegaData 30) (hugeOmegaData 31) (hugeOmegaData 32)
              (hugeOmegaData 33)).omega⟩
            ⟨0.0, 1.0⟩ ⟨s, 0⟩ k).2.2
            > BGGD M
              (candidate
            ⟨-(resolveParameters (hugeOmegaData 30) (hugeOmegaData 31) (hugeOmegaData 32)
              (hugeOmegaData 33)).rejection_factor
              * (resolveParameters (hugeOmegaData 30) (hugeOmegaData 31) (hugeOmegaData 32)
              (hugeOmegaData 33)).omega,
            (resolveParameters (hugeOmegaData 30) (hugeOmegaData 31) (hugeOmegaData 32)
              (hugeOmegaData 33)).rejection_factor
              * (resolveParameters (hugeOmegaData 30) (hugeOmegaData 31) (hugeOmegaData 32)
              (hugeOmegaData 33)).omega⟩
            ⟨0.0, 1.0⟩ ⟨s, 0⟩ k).1
              (candidate
            ⟨-(resolveParameters (hugeOmegaData 30) (hugeOmegaData 31) (hugeOmegaData 32)
              (hugeOmegaData 33)).rejection_factor
              * (resolveParameters (hugeOmegaData 30) (hugeOmegaData 31) (hugeOmegaData 32)
              (hugeOmegaData 33)).omega,
            (resolveParameters (hugeOmegaData 30) (hugeOmegaData 31) (hugeOmegaData 32)
              (hugeOmegaData 33)).rejection_factor
              * (resolveParameters (hugeOmegaData 30) (hugeOmegaData 31) (hugeOmegaData 32)
              (hugeOmegaData 33)).omega⟩
            ⟨0.0, 1.0⟩ ⟨s, 0⟩ k).2.1
              ((resolveParameters (hugeOmegaData 30) (hugeOmegaData 31) (hugeOmegaData 32)
              (hugeOmegaData 33)).omega
              * (resolveParameters (hugeOmegaData 30) (hugeOmegaData 31) (hugeOmegaData 32)
              (hugeOmegaData 33)).omega)
              (resolveParameters (hugeOmegaData 30) (hugeOmegaData 31) (hugeOmegaData 32)
              (hugeOmegaData 33)).alpha := by
  obtain ⟨hp, hw, hmin, hmax⟩ := hugeOmega_parameters
  refine ⟨hp, ?_⟩
  intro M h1 h2 h3 h4
  simp only [hp, hw, hmin, hmax]
  have hone : (1.0 : F64) = F64.fin false 1 0 := rfl
  rw [hone]
  constructor
  · intro s hs
    rw [rejectionSampling_one_of_not_rejected M _ _ _ _ _
      (hugeOmega_not_rejected M h1 h2 h3 h4 _ _ _ hs)]
    rfl
  · rintro ⟨s, hrange, hrej⟩
    exact hugeOmega_not_rejected M h1 h2 h3 h4 _ _ _ (hrange 0) (hrej 0)

/-! ### The density on doubles -/

/-- On doubles `+0` divided by a positive value (finite or infinite) is `+0`. -/
theorem F64.zero_div_pos (w : F64) (hw : (F64.fin false 0 0 : F64) < w) :
    (F64.fin false 0 0 : F64) / w = F64.fin false 0 0 := by
  rw [F64.div_def]
  cases w with
  | nan => exact absurd ((F64.lt_def _ _).mp hw) (by simp [F64.lt])
  | inf t =>
    cases t
    · rfl
    · exact absurd ((F64.lt_def _ _).mp hw) (by simp [F64.lt])
  | fin t n f =>
    have h := (F64.lt_def _ _).mp hw
    simp only [F64.lt, F64.scaled, Bool.false_eq_true, if_false, Nat.zero_mul,
      decide_eq_true_eq] at h
    cases t
    · have hn : n ≠ 0 := by
        rintro rfl
        simp at h
      simp [F64.div, hn]
    · exfalso
      simp only [if_true] at h
      have h2 := Int.ofNat_nonneg (n * 2 ^ (f - min 0 f).toNat)
      omega

/-- C13, counterexample. On doubles the density is not a strict envelope with its maximum
at the origin only. For every `<cmath>` with the special values of C Annex F: with
`omega = 2^600` (positive, `omega * omega = +inf`) and `alpha = 1` the density at the
point `(1, 0)`, which is not the origin, is exactly 1; with `omega = 2^-600` (positive,
`omega * omega = 0`) and `alpha = 1` the density at the origin is NaN, so that neither
`0 < BGGD` nor `BGGD <= 1` holds. -/
theorem BGGD_envelope_fails_on_doubles :
    ((0.0 : F64) < F64.fin false 1 600 ∧ (0.0 : F64) < F64.fin false 1 (-600)
      ∧ (1.0 : F64) ≤ 1.0)
    ∧ ∀ M : CMath F64, M.exp F64.nan = F64.nan →
        M.exp (F64.fin true 0 0) = F64.fin false 1 0 →
        M.pow F64.nan (F64.fin false 1 0) = F64.nan →
        M.pow (F64.fin false 0 0) (F64.fin false 1 0) = F64.fin false 0 0 →
        BGGD M 1.0 0.0 (F64.fin false 1 600 * F64.fin false 1 600) 1.0 = 1.0
        ∧ BGGD M 0.0 0.0 (F64.fin false 1 (-600) * F64.fin false 1 (-600)) 1.0 = F64.nan
        ∧ ¬ ((0.0 : F64)
            < BGGD M 0.0 0.0 (F64.fin false 1 (-600) * F64.fin false 1 (-600)) 1.0)
        ∧ ¬ (BGGD M 0.0 0.0 (F64.fin false 1 (-600) * F64.fin false 1 (-600)) 1.0
            ≤ (1.0 : F64)) := by
  refine ⟨⟨by decide, by decide, by decide⟩, ?_⟩
  intro M h1 h2 h3 h4
  have hone : (1.0 : F64) = F64.fin false 1 0 := rfl
  have hb1 : ((1.0 * 1.0 + 0.0 * 0.0) / (F64.fin false 1 600 * F64.fin false 1 600) : F64)
      = F64.fin false 0 0 := rfl
  have hb2 : ((0.0 * 0.0 + 0.0 * 0.0) / (F64.fin false 1 (-600) * F64.fin false 1 (-600))
      : F64) = F64.nan := rfl
  have hneg_nan : (-2 * F64.nan : F64) = F64.nan := rfl
  have hneg_zero : (-2 * F64.fin false 0 0 : F64) = F64.fin true 0 0 := rfl
  have e1 : BGGD M 1.0 0.0 (F64.fin false 1 600 * F64.fin false 1 600) 1.0 = 1.0 := by
    unfold BGGD
    rw [hb1, hone, h4, hneg_zero, h2]
  have e2 : BGGD M 0.0 0.0 (F64.fin false 1 (-600) * F64.fin false 1 (-600)) 1.0
      = F64.nan := by
    unfold BGGD
    rw [hb2, hone, h3, hneg_nan, h1]
  refine ⟨e1, e2, ?_, ?_⟩
  · rw [e2]
    decide
  · rw [e2]
    decide

/-- C13, amended. In exact arithmetic (`std::exp` and `std::pow` read as the real
functions) the density is a rejection envelope of height 1: for every `omega > 0`,
`alpha ≥ 1` and all real `xx`, `yy`, `0 < BGGD(xx, yy, omega², alpha) ≤ 1`, with value 1
exactly at the origin, and a candidate at the origin is accepted for every `uu` in `[0, 1]`.
On doubles what remains is the acceptance at the origin: for every `<cmath>` with
`exp(-0) = 1` and `pow(+0, a) = +0` for `a >= 1`, whenever `omega * omega` is positive (it
has not underflowed to 0) and `alpha >= 1`, the density at the origin is exactly 1 and the
loop's test `uu > density` is false for every `uu <= 1`. -/
theorem BGGD_envelope_exact_and_origin_on_doubles (omega alpha xx yy : ℝ)
    (homega : 0 < omega) (halpha : 1 ≤ alpha) (M : CMath F64)
    (hexp_zero : M.exp (F64.fin true 0 0) = F64.fin false 1 0)
    (hpow_zero : ∀ a : F64, (1.0 : F64) ≤ a →
      M.pow (F64.fin false 0 0) a = F64.fin false 0 0) :
    (0 < BGGD realMath xx yy (omega * omega) alpha
      ∧ BGGD realMath xx yy (omega * omega) alpha ≤ 1
      ∧ (BGGD realMath xx yy (omega * omega) alpha = 1 ↔ xx = 0 ∧ yy = 0)
      ∧ ∀ uu : ℝ, 0 ≤ uu ∧ uu ≤ 1 →
          uu ≤ BGGD realMath 0 0 (omega * omega) alpha
          ∧ decide (uu > BGGD realMath 0 0 (omega * omega) alpha) = false)
    ∧ ∀ omega64 alpha64 : F64, (0.0 : F64) < omega64 * omega64 → (1.0 : F64) ≤ alpha64 →
        BGGD M 0.0 0.0 (omega64 * omega64) alpha64 = 1.0
        ∧ ∀ uu : F64, uu ≤ 1.0 →
            decide (uu > BGGD M 0.0 0.0 (omega64 * omega64) alpha64) = false := by
  refine ⟨BGGD_envelope omega alpha xx yy homega halpha, ?_⟩
  intro omega64 alpha64 hw ha
  have hzero : (0.0 : F64) = F64.fin false 0 0 := rfl
  have hone : (1.0 : F64) = F64.fin false 1 0 := rfl
  have hsum : (F64.fin false 0 0 * F64.fin false 0 0
      + F64.fin false 0 0 * F64.fin false 0 0 : F64) = F64.fin false 0 0 := rfl
  have hneg_zero : (-2 * F64.fin false 0 0 : F64) = F64.fin true 0 0 := rfl
  rw [hzero] at hw
  have e : BGGD M 0.0 0.0 (omega64 * omega64) alpha64 = 1.0 := by
    simp only [BGGD, hzero, hsum, F64.zero_div_pos _ hw, hpow_zero alpha64 ha, hneg_zero,
      hexp_zero, hone]
  refine ⟨e, ?_⟩
  intro uu huu
  rw [e, hone]
  rw [hone] at huu
  have h := F64.not_lt_of_le _ _ ((F64.le_def _ _).mp huu)
  simp only [decide_eq_false_iff_not, gt_iff_lt, F64.lt_def, h, Bool.false_eq_true,
    not_false_eq_true]

/-- Witness of the amended C13: `omega = 1`, `alpha = 1` at the point `(1, 0)`, and a
`<cmath>` reading that meets the two hypotheses on doubles. -/
theorem BGGD_envelope_exact_and_origin_on_doubles_witness :
    ((0 : ℝ) < 1 ∧ (1 : ℝ) ≤ 1)
    ∧ 0 < BGGD realMath 1 0 (1 * 1) 1 ∧ BGGD realMath 1 0 (1 * 1) 1 ≤ 1
    ∧ BGGD (⟨fun _ => F64.fin false 1 0, fun x _ => x, fun x => x, fun x => x,
          fun x => x⟩ : CMath F64) 0.0 0.0 (1.0 * 1.0) 1.0 = 1.0 :=
  ⟨by norm_num,
    (BGGD_envelope_exact_and_origin_on_doubles 1 1 1 0 (by norm_num) (by norm_num)
      ⟨fun _ => F64.fin false 1 0, fun x _ => x, fun x => x, fun x => x, fun x => x⟩
      rfl (fun _ _ => rfl)).1.1,
    (BGGD_envelope_exact_and_origin_on_doubles 1 1 1 0 (by norm_num) (by norm_num)
      ⟨fun _ => F64.fin false 1 0, fun x _ => x, fun x => x, fun x => x, fun x => x⟩
      rfl (fun _ _ => rfl)).1.2.1,
    ((BGGD_envelope_exact_and_origin_on_doubles 1 1 1 0 (by norm_num) (by norm_num)
      ⟨fun _ => F64.fin false 1 0, fun x _ => x, fun x => x, fun x => x, fun x => x⟩
      rfl (fun _ _ => rfl)).2 1.0 1.0 (by decide) (by decide)).1⟩

end Binary64

end SourceMMFiber
